import Mathlib

/-!
# ovsdbclient: typed decoding of Bridge / Port rows and the interface → bridge join

A shallow embedding of `ovs_bridge.go` and `ovs_port.go`.

* Go `error` values are modelled by their message (`String`); a nil error is `none`.
* A Go call that returns `(value, error)` is an `Outcome`: `ok v` for `(v, nil)`,
  `error msg` for `(nil, err)`, and `panic` when a type assertion `data.(T)` fails.
* Go maps are finite partial functions `String → Option β`; indexing a missing key
  gives the zero value.
* The query collaborator `Transact` and the row method `GetColumnValue` are not part
  of the two files; they are taken as parameters (fields of `OvsClient` and `Row`).
  `Transact` threads an explicit world state `σ`, because two successive calls may
  observe different database contents.
-/

namespace Ovsdbclient

/-! ## Go values -/

/-- Dynamic values that may sit behind the `interface{}` returned by `GetColumnValue`. -/
inductive Value where
  | null
  | string (s : String)
  | strings (l : List String)
  | bool (b : Bool)
  | int (n : Int)
  | stringMap (m : List (String × String))
  deriving DecidableEq, Repr

/-- The type assertion `data.(string)`: `none` stands for the run-time panic. -/
def Value.assertString : Value → Option String
  | .string s => some s
  | _ => none

/-- The type assertion `data.([]string)`: `none` stands for the run-time panic. -/
def Value.assertStrings : Value → Option (List String)
  | .strings l => some l
  | _ => none

/-- The triple `(data, dataType, error)` returned by `row.GetColumnValue(name, columns)`. -/
structure Lookup where
  data : Value
  dataType : String
  error : Option String
  deriving DecidableEq, Repr

/-- The result of a Go function returning `(value, error)`, or panicking. -/
inductive Outcome (α : Type) where
  | ok (val : α)
  | error (msg : String)
  | panic
  deriving Repr

/-- Sequencing: run `f` on the value of a successful outcome, propagate failure otherwise. -/
def Outcome.bind {α β : Type} : Outcome α → (α → Outcome β) → Outcome β
  | .ok a, f => f a
  | .error e, _ => .error e
  | .panic, _ => .panic

/-- Apply a function to the value of a successful outcome. -/
def Outcome.map {α β : Type} (f : α → β) : Outcome α → Outcome β
  | .ok a => .ok (f a)
  | .error e => .error e
  | .panic => .panic

/-- A Go `map[string]β`. -/
abbrev GoMap (β : Type) := String → Option β

/-- The value `make(map[string]β)`. -/
def GoMap.empty {β : Type} : GoMap β := fun _ => none

/-- The assignment `m[k] = v`. -/
def GoMap.set {β : Type} (m : GoMap β) (k : String) (v : β) : GoMap β :=
  fun x => if x = k then some v else m x

/-- The expression `m[k]` on a map of slices: a missing key gives the nil slice. -/
def GoMap.index {β : Type} (m : GoMap (List β)) (k : String) : List β :=
  (m k).getD []

/-- A `float64`, kept as its bit pattern; the zero value has all bits clear. -/
structure Float64 where
  bits : Nat := 0
  deriving DecidableEq, Repr

/-! ## The query collaborator -/

/-- A result row, seen through its only method used here. -/
structure Row (κ : Type) where
  GetColumnValue : String → κ → Lookup

/-- What `Transact` hands back on success: `result.Rows` and `result.Columns`. -/
structure Result (κ : Type) where
  Rows : List (Row κ)
  Columns : κ

/-- The part of `OvsClient` that the two files use: `cli.Database.Vswitch.Name` and
`cli.Database.Vswitch.Client.Transact`, the latter acting on a world state `σ`. -/
structure OvsClient (σ κ : Type) where
  Name : String
  Transact : String → String → σ → (Result κ × Option String) × σ

/-! ## Records -/

/-- The struct `OvsBridge`; every field defaults to its Go zero value. -/
structure OvsBridge where
  UUID : String := ""
  Name : String := ""
  AutoAttach : List String := []
  Controller : List String := []
  DatapathName : String := ""
  DatapathID : String := ""
  DatapathType : String := ""
  DatapathVersion : String := ""
  ExternalIDs : GoMap String := GoMap.empty
  FailMode : String := ""
  FloodVlans : List String := []
  FlowTables : GoMap String := GoMap.empty
  Ipfix : List String := []
  McastSnoopingEnable : Bool := false
  Mirrors : List String := []
  Netflow : List String := []
  OtherConfig : GoMap String := GoMap.empty
  Ports : List String := []
  Protocols : List String := []
  RstpEnable : Bool := false
  RstpStatus : GoMap String := GoMap.empty
  Sflow : List String := []
  Status : GoMap String := GoMap.empty
  StpEnable : Bool := false

/-- The struct `OvsPort`; every field defaults to its Go zero value. -/
structure OvsPort where
  UUID : String := ""
  Name : String := ""
  BondActiveSlave : List String := []
  BondDowndelay : Float64 := {}
  BondFakeIface : Bool := false
  BondMode : List String := []
  BondUpdelay : Float64 := {}
  Cvlans : List String := []
  ExternalIDs : GoMap String := GoMap.empty
  FakeBridge : Bool := false
  Interfaces : List String := []
  Lacp : List String := []
  Mac : List String := []
  OtherConfig : GoMap String := GoMap.empty
  Protected : Bool := false
  Qos : List String := []
  RstpStatistics : GoMap Float64 := GoMap.empty
  RstpStatus : GoMap String := GoMap.empty
  Statistics : GoMap Float64 := GoMap.empty
  Status : GoMap String := GoMap.empty
  Tag : List String := []
  Trunks : List String := []
  VlanMode : List String := []

/-! ## `GetDbBridges` -/

/-- Lines 63–71 of `ovs_bridge.go`: a fresh bridge whose `UUID` is read from `_uuid`. -/
def GetDbBridges.uuid {κ : Type} (row : Row κ) (columns : κ) : Outcome OvsBridge :=
  let bridge : OvsBridge := {}
  let r := row.GetColumnValue "_uuid" columns
  match r.error with
  | some error => .error ("couldn't get bridge '_uuid': " ++ error)
  | none =>
    if r.dataType ≠ "string" then .error "bridge '_uuid' is not string"
    else match r.data.assertString with
      | some s => .ok { bridge with UUID := s }
      | none => .panic

/-- Lines 73–79 of `ovs_bridge.go`: the `name` column. -/
def GetDbBridges.name {κ : Type} (row : Row κ) (columns : κ) (bridge : OvsBridge) :
    Outcome OvsBridge :=
  let r := row.GetColumnValue "name" columns
  match r.error with
  | some _ => .ok bridge
  | none =>
    if r.dataType = "string" then
      match r.data.assertString with
      | some s => .ok { bridge with Name := s }
      | none => .panic
    else .error ("'name' of bridge " ++ bridge.UUID ++ " is not string")

/-- Lines 80–88 of `ovs_bridge.go`: the `ports` column. -/
def GetDbBridges.ports {κ : Type} (row : Row κ) (columns : κ) (bridge : OvsBridge) :
    Outcome OvsBridge :=
  let r := row.GetColumnValue "ports" columns
  match r.error with
  | some _ => .ok bridge
  | none =>
    if r.dataType = "[]string" then
      match r.data.assertStrings with
      | some l => .ok { bridge with Ports := l }
      | none => .panic
    else if r.dataType = "string" then
      match r.data.assertString with
      | some s => .ok { bridge with Ports := bridge.Ports ++ [s] }
      | none => .panic
    else .error ("'ports' of bridge " ++ bridge.UUID ++ " is not array of strings and not string")

/-- The scalar part of one loop iteration (lines 63–79): identifier, then name. -/
def GetDbBridges.scalars {κ : Type} (row : Row κ) (columns : κ) : Outcome OvsBridge :=
  (GetDbBridges.uuid row columns).bind (GetDbBridges.name row columns)

/-- One iteration of the row loop (lines 63–88), up to the `append`. -/
def GetDbBridges.body {κ : Type} (row : Row κ) (columns : κ) : Outcome OvsBridge :=
  (GetDbBridges.scalars row columns).bind (GetDbBridges.ports row columns)

/-- The loop `for _, row := range result.Rows` (lines 62–91) with its accumulator. -/
def GetDbBridges.loop {κ : Type} (columns : κ) : List (Row κ) → List OvsBridge →
    Outcome (List OvsBridge)
  | [], bridges => .ok bridges
  | row :: rest, bridges =>
    match GetDbBridges.body row columns with
    | .ok bridge => GetDbBridges.loop columns rest (bridges ++ [bridge])
    | .error e => .error e
    | .panic => .panic

/-- The method `GetDbBridges`. -/
def GetDbBridges {σ κ : Type} (cli : OvsClient σ κ) (s : σ) : Outcome (List OvsBridge) × σ :=
  let bridges : List OvsBridge := []
  let query := "SELECT * FROM Bridge"
  match cli.Transact cli.Name query s with
  | ((_, some error), s1) => (.error ("the '" ++ query ++ "' query failed: " ++ error), s1)
  | ((result, none), s1) =>
    if result.Rows.length = 0 then
      (.error ("the '" ++ query ++ "' query did not return any rows"), s1)
    else (GetDbBridges.loop result.Columns result.Rows bridges, s1)

/-! ## `GetDbPorts` -/

/-- Lines 62–70 of `ovs_port.go`: a fresh port whose `UUID` is read from `_uuid`. -/
def GetDbPorts.uuid {κ : Type} (row : Row κ) (columns : κ) : Outcome OvsPort :=
  let port : OvsPort := {}
  let r := row.GetColumnValue "_uuid" columns
  match r.error with
  | some error => .error ("couldn't get port '_uuid': " ++ error)
  | none =>
    if r.dataType ≠ "string" then .error "port '_uuid' is not string"
    else match r.data.assertString with
      | some s => .ok { port with UUID := s }
      | none => .panic

/-- Lines 72–78 of `ovs_port.go`: the `name` column. -/
def GetDbPorts.name {κ : Type} (row : Row κ) (columns : κ) (port : OvsPort) :
    Outcome OvsPort :=
  let r := row.GetColumnValue "name" columns
  match r.error with
  | some _ => .ok port
  | none =>
    if r.dataType = "string" then
      match r.data.assertString with
      | some s => .ok { port with Name := s }
      | none => .panic
    else .error ("'name' of port " ++ port.UUID ++ " is not string")

/-- Lines 79–87 of `ovs_port.go`: the `interfaces` column. -/
def GetDbPorts.interfaces {κ : Type} (row : Row κ) (columns : κ) (port : OvsPort) :
    Outcome OvsPort :=
  let r := row.GetColumnValue "interfaces" columns
  match r.error with
  | some _ => .ok port
  | none =>
    if r.dataType = "[]string" then
      match r.data.assertStrings with
      | some l => .ok { port with Interfaces := l }
      | none => .panic
    else if r.dataType = "string" then
      match r.data.assertString with
      | some s => .ok { port with Interfaces := port.Interfaces ++ [s] }
      | none => .panic
    else .error ("'interfaces' of port " ++ port.UUID ++
      " is not array of strings and not string")

/-- The scalar part of one loop iteration (lines 62–78): identifier, then name. -/
def GetDbPorts.scalars {κ : Type} (row : Row κ) (columns : κ) : Outcome OvsPort :=
  (GetDbPorts.uuid row columns).bind (GetDbPorts.name row columns)

/-- One iteration of the row loop (lines 62–87), up to the `append`. -/
def GetDbPorts.body {κ : Type} (row : Row κ) (columns : κ) : Outcome OvsPort :=
  (GetDbPorts.scalars row columns).bind (GetDbPorts.interfaces row columns)

/-- The loop `for _, row := range result.Rows` (lines 61–90) with its accumulator. -/
def GetDbPorts.loop {κ : Type} (columns : κ) : List (Row κ) → List OvsPort →
    Outcome (List OvsPort)
  | [], ports => .ok ports
  | row :: rest, ports =>
    match GetDbPorts.body row columns with
    | .ok port => GetDbPorts.loop columns rest (ports ++ [port])
    | .error e => .error e
    | .panic => .panic

/-- The method `GetDbPorts`. -/
def GetDbPorts {σ κ : Type} (cli : OvsClient σ κ) (s : σ) : Outcome (List OvsPort) × σ :=
  let ports : List OvsPort := []
  let query := "SELECT * FROM Port"
  match cli.Transact cli.Name query s with
  | ((_, some error), s1) => (.error ("the '" ++ query ++ "' query failed: " ++ error), s1)
  | ((result, none), s1) =>
    if result.Rows.length = 0 then
      (.error ("the '" ++ query ++ "' query did not return any rows"), s1)
    else (GetDbPorts.loop result.Columns result.Rows ports, s1)

/-! ## The topology join -/

/-- Lines 100–103 of `ovs_port.go`: the map built from the materialized ports. -/
def GetAllPortsToInterfaces.build (ports : List OvsPort) : GoMap (List String) :=
  ports.foldl (fun allPortsToInterfaces port =>
    allPortsToInterfaces.set port.UUID port.Interfaces) GoMap.empty

/-- The method `GetAllPortsToInterfaces`. -/
def GetAllPortsToInterfaces {σ κ : Type} (cli : OvsClient σ κ) (s : σ) :
    Outcome (GoMap (List String)) × σ :=
  match GetDbPorts cli s with
  | (.error error, s1) => (.error ("couldn't get list of ports: " ++ error), s1)
  | (.panic, s1) => (.panic, s1)
  | (.ok ports, s1) => (.ok (GetAllPortsToInterfaces.build ports), s1)

/-- Lines 105–112 of `ovs_bridge.go`: the three nested loops of the join. -/
def GetAllInterfacesToBridges.join (bridges : List OvsBridge)
    (allPortsToInterfaces : GoMap (List String)) : GoMap String :=
  bridges.foldl (fun m bridge =>
    bridge.Ports.foldl (fun m bridgePort =>
      (allPortsToInterfaces.index bridgePort).foldl (fun m interfaceUUID =>
        m.set interfaceUUID bridge.Name) m) m) GoMap.empty

/-- The method `GetAllInterfacesToBridges`. -/
def GetAllInterfacesToBridges {σ κ : Type} (cli : OvsClient σ κ) (s : σ) :
    Outcome (GoMap String) × σ :=
  match GetDbBridges cli s with
  | (.error error, s1) => (.error ("couldn't get list of bridges: " ++ error), s1)
  | (.panic, s1) => (.panic, s1)
  | (.ok bridges, s1) =>
    match GetAllPortsToInterfaces cli s1 with
    | (.error error, s2) => (.error ("couldn't get list of ports: " ++ error), s2)
    | (.panic, s2) => (.panic, s2)
    | (.ok allPortsToInterfaces, s2) =>
      (.ok (GetAllInterfacesToBridges.join bridges allPortsToInterfaces), s2)

/-! ## Fixtures -/

/-- The lookup a row gives for a column it does not have. -/
def Lookup.absent : Lookup := ⟨.null, "", some "column not found"⟩

/-- A lookup that succeeds with a Go string. -/
def Lookup.ofString (s : String) : Lookup := ⟨.string s, "string", none⟩

/-- A lookup that succeeds with a Go slice of strings. -/
def Lookup.ofStrings (l : List String) : Lookup := ⟨.strings l, "[]string", none⟩

/-- A row given by its cells; every other column is absent. -/
def Row.ofCells (cells : List (String × Lookup)) : Row Unit :=
  ⟨fun name _ => (cells.lookup name).getD Lookup.absent⟩

/-- A client over fixed Bridge and Port tables whose state is the log of the issued queries. -/
def OvsClient.ofTables (bridgeRows portRows : List (Row Unit)) : OvsClient (List String) Unit where
  Name := "Open_vSwitch"
  Transact := fun _ query log =>
    if query = "SELECT * FROM Bridge" then ((⟨bridgeRows, ()⟩, none), log ++ [query])
    else if query = "SELECT * FROM Port" then ((⟨portRows, ()⟩, none), log ++ [query])
    else ((⟨[], ()⟩, some "no such table"), log ++ [query])

/-- Bridge rows of the two-bridge fixture: `B1` owns `P1`, `B2` owns `P2`. -/
def fixtureBridgeRows : List (Row Unit) :=
  [Row.ofCells [("_uuid", .ofString "b1"), ("name", .ofString "B1"), ("ports", .ofString "P1")],
   Row.ofCells [("_uuid", .ofString "b2"), ("name", .ofString "B2"),
     ("ports", .ofStrings ["P2"])]]

/-- Port rows of the two-bridge fixture: `P1` has `I1`, `I2`; `P2` has `I3`. -/
def fixturePortRows : List (Row Unit) :=
  [Row.ofCells [("_uuid", .ofString "P1"), ("name", .ofString "p1"),
     ("interfaces", .ofStrings ["I1", "I2"])],
   Row.ofCells [("_uuid", .ofString "P2"), ("name", .ofString "p2"),
     ("interfaces", .ofString "I3")]]

/-- The two-bridge fixture as a client. -/
def fixtureClient : OvsClient (List String) Unit :=
  OvsClient.ofTables fixtureBridgeRows fixturePortRows

/-- Two bridges that both list port `P1`: the later one, `B2`, must win. -/
def sharedPortBridgeRows : List (Row Unit) :=
  [Row.ofCells [("_uuid", .ofString "b1"), ("name", .ofString "B1"), ("ports", .ofString "P1")],
   Row.ofCells [("_uuid", .ofString "b2"), ("name", .ofString "B2"),
     ("ports", .ofStrings ["P1", "P2"])]]

/-- Bridge `B1` lists `P1` and the unknown port `P9`. -/
def danglingBridgeRows : List (Row Unit) :=
  [Row.ofCells [("_uuid", .ofString "b1"), ("name", .ofString "B1"),
     ("ports", .ofStrings ["P1", "P9"])]]

/-- A good row followed by a row without `_uuid`. -/
def missingUuidRows : List (Row Unit) :=
  [Row.ofCells [("_uuid", .ofString "u1"), ("name", .ofString "N1")],
   Row.ofCells [("name", .ofString "N2")]]

/-- A good row followed by a row whose `_uuid` is tagged as a list. -/
def listUuidRows : List (Row Unit) :=
  [Row.ofCells [("_uuid", .ofString "u1"), ("name", .ofString "N1")],
   Row.ofCells [("_uuid", .ofStrings ["u2"]), ("name", .ofString "N2")]]

/-- A good row followed by a row whose `name` is a two-element list. -/
def listNameRows : List (Row Unit) :=
  [Row.ofCells [("_uuid", .ofString "u1"), ("name", .ofString "N1")],
   Row.ofCells [("_uuid", .ofString "u2"), ("name", .ofStrings ["N2", "N3"])]]

/-- A single row whose `interfaces` column is a boolean. -/
def boolInterfacesRows : List (Row Unit) :=
  [Row.ofCells [("_uuid", .ofString "u1"), ("interfaces", ⟨.bool true, "bool", none⟩)]]

/-- A single row with a string `_uuid` whose `name` is a two-element list. -/
def nameListOnlyRows : List (Row Unit) :=
  [Row.ofCells [("_uuid", .ofString "u1"), ("name", .ofStrings ["N1", "N2"])]]

/-- A single row with a string `_uuid`, no `name`, and an integer `ports` column. -/
def intPortsRows : List (Row Unit) :=
  [Row.ofCells [("_uuid", .ofString "u1"), ("ports", ⟨.int 7, "int", none⟩)]]

/-- A single row with a string `_uuid` whose `name` lookup fails with an unsupported-shape
error although the column is present. -/
def unsupportedNameRows : List (Row Unit) :=
  [Row.ofCells [("_uuid", .ofString "u1"),
     ("name", ⟨.null, "map[string]int", some "data type is unsupported"⟩)]]

/-- Rows with absent optional columns next to fully populated ones. -/
def sparseRows : List (Row Unit) :=
  [Row.ofCells [("_uuid", .ofString "u1")],
   Row.ofCells [("_uuid", .ofString "u2"), ("name", .ofString "N2"),
     ("ports", .ofStrings ["P1", "P2"]), ("interfaces", .ofString "I1")]]

/-! ## Reference notions for decoding -/

/-- The contract of `GetColumnValue` that the type assertions rely on: when a lookup
succeeds, the tag `"string"` comes with a Go string and `"[]string"` with a slice of strings. -/
def Lookup.TagSound (l : Lookup) : Prop :=
  l.error = none →
    (l.dataType = "string" → ∃ s, l.data = .string s) ∧
    (l.dataType = "[]string" → ∃ xs, l.data = .strings xs)

/-- Every column of the row honours the tag contract. -/
def Row.TagSound {κ : Type} (row : Row κ) (columns : κ) : Prop :=
  ∀ name, (row.GetColumnValue name columns).TagSound

/-- The identifier lookup is unusable: the column is missing or its tag is not `"string"`. -/
def Lookup.BadIdentifier (l : Lookup) : Prop :=
  l.error ≠ none ∨ l.dataType ≠ "string"

/-- A scalar column that is absent, or present as a well-formed string. -/
def Lookup.AcceptedScalar (l : Lookup) : Prop :=
  l.error ≠ none ∨ ∃ n, l = Lookup.ofString n

/-- A list column that is absent, or present as a well-formed list or bare string. -/
def Lookup.AcceptedList (l : Lookup) : Prop :=
  l.error ≠ none ∨ (∃ xs, l = Lookup.ofStrings xs) ∨ ∃ x, l = Lookup.ofString x

/-- The relation between a scalar column and the field decoded from it. -/
def Lookup.DecodesScalar (l : Lookup) (field : String) : Prop :=
  (l.error ≠ none → field = "") ∧ (∀ n, l = Lookup.ofString n → field = n)

/-- The relation between a list column and the field decoded from it. -/
def Lookup.DecodesList (l : Lookup) (field : List String) : Prop :=
  (l.error ≠ none → field = []) ∧ (∀ xs, l = Lookup.ofStrings xs → field = xs) ∧
    (∀ x, l = Lookup.ofString x → field = [x])

/-- The same row loop, over an arbitrary per-row decoder. -/
def Outcome.collect {ρ β : Type} (f : ρ → Outcome β) : List ρ → List β → Outcome (List β)
  | [], acc => .ok acc
  | r :: rest, acc =>
    match f r with
    | .ok b => Outcome.collect f rest (acc ++ [b])
    | .error e => .error e
    | .panic => .panic

/-- A row with a valid identifier and a present optional column of the wrong shape: `name`
present with a tag other than `"string"`, or the list column present with a tag that is
neither `"[]string"` nor `"string"`. -/
def Row.WrongShape {κ : Type} (listColumn : String) (row : Row κ) (columns : κ) : Prop :=
  (∃ u, row.GetColumnValue "_uuid" columns = Lookup.ofString u) ∧
    (((row.GetColumnValue "name" columns).error = none ∧
        (row.GetColumnValue "name" columns).dataType ≠ "string") ∨
      ((row.GetColumnValue listColumn columns).error = none ∧
        (row.GetColumnValue listColumn columns).dataType ≠ "[]string" ∧
        (row.GetColumnValue listColumn columns).dataType ≠ "string"))

/-- Bridge `b` is the decoding of `row`: identifier, name and ports come from the three
columns and every other field has its zero value. -/
def Row.DecodesBridge {κ : Type} (columns : κ) (row : Row κ) (b : OvsBridge) : Prop :=
  b = { UUID := b.UUID, Name := b.Name, Ports := b.Ports } ∧
    row.GetColumnValue "_uuid" columns = Lookup.ofString b.UUID ∧
    (row.GetColumnValue "name" columns).DecodesScalar b.Name ∧
    (row.GetColumnValue "ports" columns).DecodesList b.Ports

/-- Port `p` is the decoding of `row`: identifier, name and interfaces come from the three
columns and every other field has its zero value. -/
def Row.DecodesPort {κ : Type} (columns : κ) (row : Row κ) (p : OvsPort) : Prop :=
  p = { UUID := p.UUID, Name := p.Name, Interfaces := p.Interfaces } ∧
    row.GetColumnValue "_uuid" columns = Lookup.ofString p.UUID ∧
    (row.GetColumnValue "name" columns).DecodesScalar p.Name ∧
    (row.GetColumnValue "interfaces" columns).DecodesList p.Interfaces

/-! ## Reference notions for the join -/

/-- Bridge `b` reaches interface `i`: some port id in `b.Ports` has `i` in its entry of the
port → interfaces map. -/
def Reaches (allPortsToInterfaces : GoMap (List String)) (b : OvsBridge) (i : String) : Prop :=
  ∃ p ∈ b.Ports, i ∈ allPortsToInterfaces.index p

/-- The innermost loop of the join: every interface of one port is set to `name`. -/
def GetAllInterfacesToBridges.perPort (name : String) (m : GoMap String)
    (interfaces : List String) : GoMap String :=
  interfaces.foldl (fun m interfaceUUID => m.set interfaceUUID name) m

/-- The middle loop of the join: all ports of one bridge. -/
def GetAllInterfacesToBridges.perBridge (allPortsToInterfaces : GoMap (List String))
    (m : GoMap String) (bridge : OvsBridge) : GoMap String :=
  bridge.Ports.foldl (fun m bridgePort =>
    GetAllInterfacesToBridges.perPort bridge.Name m (allPortsToInterfaces.index bridgePort)) m

/-! ## Reference notions for the later claims -/

/-- The client instrumented with a trace: every `Transact` call appends its database name and
query text to the log and is otherwise passed through to `cli`. -/
def OvsClient.traced {σ κ : Type} (cli : OvsClient σ κ) :
    OvsClient (σ × List (String × String)) κ where
  Name := cli.Name
  Transact := fun db query st =>
    ((cli.Transact db query st.1).1, ((cli.Transact db query st.1).2, st.2 ++ [(db, query)]))

/-- Two rows give the same lookup outcome (value, tag, error) for each of the named columns. -/
def Row.AgreeOn {κ : Type} (names : List String) (c1 c2 : κ) (r1 r2 : Row κ) : Prop :=
  ∀ name ∈ names, r1.GetColumnValue name c1 = r2.GetColumnValue name c2

/-- The string a row offers as its identifier, when the `_uuid` lookup holds a Go string. -/
def Row.uuidString {κ : Type} (columns : κ) (row : Row κ) : Option String :=
  (row.GetColumnValue "_uuid" columns).data.assertString

/-- Rows whose identifiers are the empty string, `u1`, and `u1` again. -/
def emptyAndRepeatedUuidRows : List (Row Unit) :=
  [Row.ofCells [("_uuid", .ofString "")],
   Row.ofCells [("_uuid", .ofString "u1"), ("name", .ofString "N1")],
   Row.ofCells [("_uuid", .ofString "u1"), ("name", .ofString "N2")]]

/-- The Bridge rows of the two-bridge fixture with auxiliary columns added: a map, a column
whose lookup fails, and a list. -/
def fixtureBridgeRowsAux : List (Row Unit) :=
  [Row.ofCells [("_uuid", .ofString "b1"), ("name", .ofString "B1"), ("ports", .ofString "P1"),
     ("external_ids", ⟨.stringMap [("k", "v")], "map[string]string", none⟩),
     ("datapath_id", ⟨.null, "int", some "data type is unsupported"⟩)],
   Row.ofCells [("_uuid", .ofString "b2"), ("name", .ofString "B2"),
     ("ports", .ofStrings ["P2"]), ("protocols", .ofStrings ["OpenFlow13"])]]

/-- The Port rows of the two-bridge fixture with auxiliary columns added. -/
def fixturePortRowsAux : List (Row Unit) :=
  [Row.ofCells [("_uuid", .ofString "P1"), ("name", .ofString "p1"),
     ("interfaces", .ofStrings ["I1", "I2"]), ("tag", ⟨.int 10, "int", none⟩)],
   Row.ofCells [("_uuid", .ofString "P2"), ("name", .ofString "p2"),
     ("interfaces", .ofString "I3"), ("fake_bridge", ⟨.bool false, "bool", none⟩)]]

/-- A client whose every `Transact` call fails with error `e`, while still handing back a
result value whose rows would not decode. -/
def OvsClient.unreachable (e : String) : OvsClient (List String) Unit where
  Name := "Open_vSwitch"
  Transact := fun _ query log => ((⟨missingUuidRows, ()⟩, some e), log ++ [query])

/-- Three ports with one interface each, for the order-independence fixture. -/
def orderFixturePorts : List OvsPort :=
  [{ UUID := "P1", Interfaces := ["I1"] }, { UUID := "P2", Interfaces := ["I2"] },
   { UUID := "P3", Interfaces := ["I3"] }]

/-- Bridge `B1` owning ports `P1`, `P2`, followed by bridge `B2` owning port `P3`. -/
def orderFixtureBridges : List OvsBridge :=
  [{ UUID := "b1", Name := "B1", Ports := ["P1", "P2"] },
   { UUID := "b2", Name := "B2", Ports := ["P3"] }]

/-- The same two bridges in the opposite order, with the ports of `B1` swapped. -/
def orderFixtureBridgesPermuted : List OvsBridge :=
  [{ UUID := "b2", Name := "B2", Ports := ["P3"] },
   { UUID := "b1", Name := "B1", Ports := ["P2", "P1"] }]

/-! ## Lemmas on the row loop -/

theorem GetDbBridges_loop_eq_collect {κ : Type} (columns : κ) (rows : List (Row κ))
    (acc : List OvsBridge) :
    GetDbBridges.loop columns rows acc
      = Outcome.collect (fun r => GetDbBridges.body r columns) rows acc := by
  induction rows generalizing acc with
  | nil => rfl
  | cons r rest ih =>
    simp only [GetDbBridges.loop, Outcome.collect]
    cases GetDbBridges.body r columns <;> simp [ih]

theorem GetDbPorts_loop_eq_collect {κ : Type} (columns : κ) (rows : List (Row κ))
    (acc : List OvsPort) :
    GetDbPorts.loop columns rows acc
      = Outcome.collect (fun r => GetDbPorts.body r columns) rows acc := by
  induction rows generalizing acc with
  | nil => rfl
  | cons r rest ih =>
    simp only [GetDbPorts.loop, Outcome.collect]
    cases GetDbPorts.body r columns <;> simp [ih]

theorem collect_ok_iff {ρ β : Type} (f : ρ → Outcome β) (rows : List ρ) (acc out : List β) :
    Outcome.collect f rows acc = .ok out ↔
      ∃ recs, out = acc ++ recs ∧ List.Forall₂ (fun r b => f r = .ok b) rows recs := by
  induction rows generalizing acc with
  | nil =>
    simp only [Outcome.collect, Outcome.ok.injEq, List.forall₂_nil_left_iff]
    constructor
    · intro h; exact ⟨[], by simp [h], rfl⟩
    · rintro ⟨recs, h, rfl⟩; simp [h]
  | cons r rest ih =>
    simp only [Outcome.collect]
    cases hr : f r with
    | ok b =>
      simp only [ih, List.forall₂_cons_left_iff]
      constructor
      · rintro ⟨recs, h, hf⟩
        exact ⟨b :: recs, by simp [h], b, recs, hr, hf, rfl⟩
      · rintro ⟨recs, h, c, recs', hc, hf, rfl⟩
        rw [hr] at hc
        cases hc
        exact ⟨recs', by simp [h], hf⟩
    | error e =>
      constructor
      · intro h; cases h
      · rintro ⟨recs, _, hf⟩
        cases hf with
        | cons hab _ => rw [hr] at hab; cases hab
    | panic =>
      constructor
      · intro h; cases h
      · rintro ⟨recs, _, hf⟩
        cases hf with
        | cons hab _ => rw [hr] at hab; cases hab

theorem collect_all_ok {ρ β : Type} (f : ρ → Outcome β) (g : ρ → β) (rows : List ρ)
    (acc : List β) (h : ∀ r ∈ rows, f r = .ok (g r)) :
    Outcome.collect f rows acc = .ok (acc ++ rows.map g) := by
  induction rows generalizing acc with
  | nil => simp [Outcome.collect]
  | cons r rest ih =>
    simp only [Outcome.collect, h r (List.mem_cons_self _ _)]
    rw [ih _ (fun x hx => h x (List.mem_cons_of_mem _ hx))]
    simp

theorem collect_not_ok {ρ β : Type} (f : ρ → Outcome β) (rows : List ρ) (acc out : List β)
    (h : ∃ r ∈ rows, ∀ b, f r ≠ .ok b) : Outcome.collect f rows acc ≠ .ok out := by
  induction rows generalizing acc with
  | nil => simp at h
  | cons r rest ih =>
    simp only [Outcome.collect]
    cases hr : f r with
    | ok b =>
      apply ih
      obtain ⟨x, hx, hbad⟩ := h
      rcases List.mem_cons.mp hx with h1 | h1
      · subst h1; exact absurd hr (hbad b)
      · exact ⟨x, h1, hbad⟩
    | error e => intro h; cases h
    | panic => intro h; cases h

theorem collect_error {ρ β : Type} (f : ρ → Outcome β) (rows : List ρ) (acc : List β)
    (hsound : ∀ r ∈ rows, f r ≠ .panic) (h : ∃ r ∈ rows, ∀ b, f r ≠ .ok b) :
    ∃ e, Outcome.collect f rows acc = .error e := by
  induction rows generalizing acc with
  | nil => simp at h
  | cons r rest ih =>
    simp only [Outcome.collect]
    cases hr : f r with
    | ok b =>
      apply ih
      · exact fun x hx => hsound x (List.mem_cons_of_mem _ hx)
      · obtain ⟨x, hx, hbad⟩ := h
        rcases List.mem_cons.mp hx with h1 | h1
        · subst h1; exact absurd hr (hbad b)
        · exact ⟨x, h1, hbad⟩
    | error e => exact ⟨e, rfl⟩
    | panic => exact absurd hr (hsound r (List.mem_cons_self _ _))

theorem collect_error_at {ρ β : Type} (f : ρ → Outcome β) (pre post : List ρ) (r : ρ)
    (acc : List β) (e : String) (hpre : ∀ x ∈ pre, ∃ b, f x = .ok b) (hr : f r = .error e) :
    Outcome.collect f (pre ++ r :: post) acc = .error e := by
  induction pre generalizing acc with
  | nil => simp [Outcome.collect, hr]
  | cons x xs ih =>
    obtain ⟨b, hb⟩ := hpre x (List.mem_cons_self _ _)
    simp only [List.cons_append, Outcome.collect, hb]
    exact ih _ (fun y hy => hpre y (List.mem_cons_of_mem _ hy))

/-! ## Lemmas on one iteration of `GetDbBridges` -/

theorem GetDbBridges_uuid_ofString {κ : Type} (row : Row κ) (columns : κ) (u : String)
    (h : row.GetColumnValue "_uuid" columns = Lookup.ofString u) :
    GetDbBridges.uuid row columns = .ok { UUID := u } := by
  simp [GetDbBridges.uuid, h, Lookup.ofString, Value.assertString]

theorem GetDbBridges_uuid_bad {κ : Type} (row : Row κ) (columns : κ)
    (h : (row.GetColumnValue "_uuid" columns).BadIdentifier) :
    ∃ e, GetDbBridges.uuid row columns = .error e := by
  cases he : (row.GetColumnValue "_uuid" columns).error with
  | some e => exact ⟨"couldn't get bridge '_uuid': " ++ e, by simp [GetDbBridges.uuid, he]⟩
  | none =>
    rcases h with h | h
    · exact absurd he h
    · exact ⟨"bridge '_uuid' is not string", by simp [GetDbBridges.uuid, he, h]⟩

theorem GetDbBridges_name_error {κ : Type} (row : Row κ) (columns : κ) (x : OvsBridge)
    (h : (row.GetColumnValue "name" columns).error ≠ none) :
    GetDbBridges.name row columns x = .ok x := by
  cases he : (row.GetColumnValue "name" columns).error with
  | some e => simp [GetDbBridges.name, he]
  | none => exact absurd he h

theorem GetDbBridges_name_ofString {κ : Type} (row : Row κ) (columns : κ) (x : OvsBridge) (n : String)
    (h : row.GetColumnValue "name" columns = Lookup.ofString n) :
    GetDbBridges.name row columns x = .ok { x with Name := n } := by
  simp [GetDbBridges.name, h, Lookup.ofString, Value.assertString]

theorem GetDbBridges_name_wrong_tag {κ : Type} (row : Row κ) (columns : κ) (x : OvsBridge)
    (he : (row.GetColumnValue "name" columns).error = none)
    (ht : (row.GetColumnValue "name" columns).dataType ≠ "string") :
    GetDbBridges.name row columns x = .error ("'name' of bridge " ++ x.UUID ++ " is not string") := by
  simp [GetDbBridges.name, he, ht]

theorem GetDbBridges_ports_error {κ : Type} (row : Row κ) (columns : κ) (x : OvsBridge)
    (h : (row.GetColumnValue "ports" columns).error ≠ none) :
    GetDbBridges.ports row columns x = .ok x := by
  cases he : (row.GetColumnValue "ports" columns).error with
  | some e => simp [GetDbBridges.ports, he]
  | none => exact absurd he h

theorem GetDbBridges_ports_ofStrings {κ : Type} (row : Row κ) (columns : κ) (x : OvsBridge)
    (l : List String) (h : row.GetColumnValue "ports" columns = Lookup.ofStrings l) :
    GetDbBridges.ports row columns x = .ok { x with Ports := l } := by
  simp [GetDbBridges.ports, h, Lookup.ofStrings, Value.assertStrings]

theorem GetDbBridges_ports_ofString {κ : Type} (row : Row κ) (columns : κ) (x : OvsBridge)
    (v : String) (h : row.GetColumnValue "ports" columns = Lookup.ofString v) :
    GetDbBridges.ports row columns x = .ok { x with Ports := x.Ports ++ [v] } := by
  simp [GetDbBridges.ports, h, Lookup.ofString, Value.assertString]

theorem GetDbBridges_ports_wrong_tag {κ : Type} (row : Row κ) (columns : κ) (x : OvsBridge)
    (he : (row.GetColumnValue "ports" columns).error = none)
    (ht1 : (row.GetColumnValue "ports" columns).dataType ≠ "[]string")
    (ht2 : (row.GetColumnValue "ports" columns).dataType ≠ "string") :
    GetDbBridges.ports row columns x
      = .error ("'ports' of bridge " ++ x.UUID ++ " is not array of strings and not string") := by
  simp [GetDbBridges.ports, he, ht1, ht2]

theorem GetDbBridges_uuid_fresh {κ : Type} (row : Row κ) (columns : κ) (x : OvsBridge)
    (h : GetDbBridges.uuid row columns = .ok x) : x = { UUID := x.UUID } := by
  cases he : (row.GetColumnValue "_uuid" columns).error with
  | some e => simp [GetDbBridges.uuid, he] at h
  | none =>
    simp only [GetDbBridges.uuid, he] at h
    split at h
    · cases h
    · split at h
      · cases h; rfl
      · cases h

theorem GetDbBridges_name_frame {κ : Type} (row : Row κ) (columns : κ) (x y : OvsBridge)
    (h : GetDbBridges.name row columns x = .ok y) : y = { x with Name := y.Name } := by
  cases he : (row.GetColumnValue "name" columns).error with
  | some e => simp [GetDbBridges.name, he] at h; subst h; rfl
  | none =>
    simp only [GetDbBridges.name, he] at h
    split at h
    · split at h
      · cases h; rfl
      · cases h
    · cases h

theorem GetDbBridges_scalars_Ports {κ : Type} (row : Row κ) (columns : κ) (x : OvsBridge)
    (h : GetDbBridges.scalars row columns = .ok x) : x.Ports = [] := by
  unfold GetDbBridges.scalars at h
  cases hu : GetDbBridges.uuid row columns with
  | ok y =>
    rw [hu] at h
    simp only [Outcome.bind] at h
    rw [GetDbBridges_name_frame row columns y x h, GetDbBridges_uuid_fresh row columns y hu]
  | error e => rw [hu] at h; cases h
  | panic => rw [hu] at h; cases h

theorem GetDbBridges_uuid_no_panic {κ : Type} (row : Row κ) (columns : κ)
    (h : (row.GetColumnValue "_uuid" columns).TagSound) :
    GetDbBridges.uuid row columns ≠ .panic := by
  cases he : (row.GetColumnValue "_uuid" columns).error with
  | some e => simp [GetDbBridges.uuid, he]
  | none =>
    simp only [GetDbBridges.uuid, he]
    split
    · simp
    · rename_i ht
      obtain ⟨s, hs⟩ := (h he).1 (not_not.mp ht)
      simp [hs, Value.assertString]

theorem GetDbBridges_name_no_panic {κ : Type} (row : Row κ) (columns : κ) (x : OvsBridge)
    (h : (row.GetColumnValue "name" columns).TagSound) :
    GetDbBridges.name row columns x ≠ .panic := by
  cases he : (row.GetColumnValue "name" columns).error with
  | some e => simp [GetDbBridges.name, he]
  | none =>
    simp only [GetDbBridges.name, he]
    split
    · rename_i ht
      obtain ⟨s, hs⟩ := (h he).1 ht
      simp [hs, Value.assertString]
    · simp

theorem GetDbBridges_ports_no_panic {κ : Type} (row : Row κ) (columns : κ) (x : OvsBridge)
    (h : (row.GetColumnValue "ports" columns).TagSound) :
    GetDbBridges.ports row columns x ≠ .panic := by
  cases he : (row.GetColumnValue "ports" columns).error with
  | some e => simp [GetDbBridges.ports, he]
  | none =>
    simp only [GetDbBridges.ports, he]
    split
    · rename_i ht
      obtain ⟨s, hs⟩ := (h he).2 ht
      simp [hs, Value.assertStrings]
    · split
      · rename_i ht
        obtain ⟨s, hs⟩ := (h he).1 ht
        simp [hs, Value.assertString]
      · simp

theorem GetDbBridges_body_no_panic {κ : Type} (row : Row κ) (columns : κ)
    (h : row.TagSound columns) : GetDbBridges.body row columns ≠ .panic := by
  unfold GetDbBridges.body GetDbBridges.scalars
  cases hu : GetDbBridges.uuid row columns with
  | ok x =>
    simp only [Outcome.bind]
    cases hn : GetDbBridges.name row columns x with
    | ok y => exact GetDbBridges_ports_no_panic row columns y (h "ports")
    | error e => simp [Outcome.bind]
    | panic => exact absurd hn (GetDbBridges_name_no_panic row columns x (h "name"))
  | error e => simp [Outcome.bind]
  | panic => exact absurd hu (GetDbBridges_uuid_no_panic row columns (h "_uuid"))

/-! ## Lemmas on one iteration of `GetDbPorts` -/

theorem GetDbPorts_uuid_ofString {κ : Type} (row : Row κ) (columns : κ) (u : String)
    (h : row.GetColumnValue "_uuid" columns = Lookup.ofString u) :
    GetDbPorts.uuid row columns = .ok { UUID := u } := by
  simp [GetDbPorts.uuid, h, Lookup.ofString, Value.assertString]

theorem GetDbPorts_uuid_bad {κ : Type} (row : Row κ) (columns : κ)
    (h : (row.GetColumnValue "_uuid" columns).BadIdentifier) :
    ∃ e, GetDbPorts.uuid row columns = .error e := by
  cases he : (row.GetColumnValue "_uuid" columns).error with
  | some e => exact ⟨"couldn't get port '_uuid': " ++ e, by simp [GetDbPorts.uuid, he]⟩
  | none =>
    rcases h with h | h
    · exact absurd he h
    · exact ⟨"port '_uuid' is not string", by simp [GetDbPorts.uuid, he, h]⟩

theorem GetDbPorts_name_error {κ : Type} (row : Row κ) (columns : κ) (x : OvsPort)
    (h : (row.GetColumnValue "name" columns).error ≠ none) :
    GetDbPorts.name row columns x = .ok x := by
  cases he : (row.GetColumnValue "name" columns).error with
  | some e => simp [GetDbPorts.name, he]
  | none => exact absurd he h

theorem GetDbPorts_name_ofString {κ : Type} (row : Row κ) (columns : κ) (x : OvsPort) (n : String)
    (h : row.GetColumnValue "name" columns = Lookup.ofString n) :
    GetDbPorts.name row columns x = .ok { x with Name := n } := by
  simp [GetDbPorts.name, h, Lookup.ofString, Value.assertString]

theorem GetDbPorts_name_wrong_tag {κ : Type} (row : Row κ) (columns : κ) (x : OvsPort)
    (he : (row.GetColumnValue "name" columns).error = none)
    (ht : (row.GetColumnValue "name" columns).dataType ≠ "string") :
    GetDbPorts.name row columns x = .error ("'name' of port " ++ x.UUID ++ " is not string") := by
  simp [GetDbPorts.name, he, ht]

theorem GetDbPorts_interfaces_error {κ : Type} (row : Row κ) (columns : κ) (x : OvsPort)
    (h : (row.GetColumnValue "interfaces" columns).error ≠ none) :
    GetDbPorts.interfaces row columns x = .ok x := by
  cases he : (row.GetColumnValue "interfaces" columns).error with
  | some e => simp [GetDbPorts.interfaces, he]
  | none => exact absurd he h

theorem GetDbPorts_interfaces_ofStrings {κ : Type} (row : Row κ) (columns : κ) (x : OvsPort)
    (l : List String) (h : row.GetColumnValue "interfaces" columns = Lookup.ofStrings l) :
    GetDbPorts.interfaces row columns x = .ok { x with Interfaces := l } := by
  simp [GetDbPorts.interfaces, h, Lookup.ofStrings, Value.assertStrings]

theorem GetDbPorts_interfaces_ofString {κ : Type} (row : Row κ) (columns : κ) (x : OvsPort)
    (v : String) (h : row.GetColumnValue "interfaces" columns = Lookup.ofString v) :
    GetDbPorts.interfaces row columns x = .ok { x with Interfaces := x.Interfaces ++ [v] } := by
  simp [GetDbPorts.interfaces, h, Lookup.ofString, Value.assertString]

theorem GetDbPorts_interfaces_wrong_tag {κ : Type} (row : Row κ) (columns : κ) (x : OvsPort)
    (he : (row.GetColumnValue "interfaces" columns).error = none)
    (ht1 : (row.GetColumnValue "interfaces" columns).dataType ≠ "[]string")
    (ht2 : (row.GetColumnValue "interfaces" columns).dataType ≠ "string") :
    GetDbPorts.interfaces row columns x
      = .error ("'interfaces' of port " ++ x.UUID ++ " is not array of strings and not string") := by
  simp [GetDbPorts.interfaces, he, ht1, ht2]

theorem GetDbPorts_uuid_fresh {κ : Type} (row : Row κ) (columns : κ) (x : OvsPort)
    (h : GetDbPorts.uuid row columns = .ok x) : x = { UUID := x.UUID } := by
  cases he : (row.GetColumnValue "_uuid" columns).error with
  | some e => simp [GetDbPorts.uuid, he] at h
  | none =>
    simp only [GetDbPorts.uuid, he] at h
    split at h
    · cases h
    · split at h
      · cases h; rfl
      · cases h

theorem GetDbPorts_name_frame {κ : Type} (row : Row κ) (columns : κ) (x y : OvsPort)
    (h : GetDbPorts.name row columns x = .ok y) : y = { x with Name := y.Name } := by
  cases he : (row.GetColumnValue "name" columns).error with
  | some e => simp [GetDbPorts.name, he] at h; subst h; rfl
  | none =>
    simp only [GetDbPorts.name, he] at h
    split at h
    · split at h
      · cases h; rfl
      · cases h
    · cases h

theorem GetDbPorts_scalars_Interfaces {κ : Type} (row : Row κ) (columns : κ) (x : OvsPort)
    (h : GetDbPorts.scalars row columns = .ok x) : x.Interfaces = [] := by
  unfold GetDbPorts.scalars at h
  cases hu : GetDbPorts.uuid row columns with
  | ok y =>
    rw [hu] at h
    simp only [Outcome.bind] at h
    rw [GetDbPorts_name_frame row columns y x h, GetDbPorts_uuid_fresh row columns y hu]
  | error e => rw [hu] at h; cases h
  | panic => rw [hu] at h; cases h

theorem GetDbPorts_uuid_no_panic {κ : Type} (row : Row κ) (columns : κ)
    (h : (row.GetColumnValue "_uuid" columns).TagSound) :
    GetDbPorts.uuid row columns ≠ .panic := by
  cases he : (row.GetColumnValue "_uuid" columns).error with
  | some e => simp [GetDbPorts.uuid, he]
  | none =>
    simp only [GetDbPorts.uuid, he]
    split
    · simp
    · rename_i ht
      obtain ⟨s, hs⟩ := (h he).1 (not_not.mp ht)
      simp [hs, Value.assertString]

theorem GetDbPorts_name_no_panic {κ : Type} (row : Row κ) (columns : κ) (x : OvsPort)
    (h : (row.GetColumnValue "name" columns).TagSound) :
    GetDbPorts.name row columns x ≠ .panic := by
  cases he : (row.GetColumnValue "name" columns).error with
  | some e => simp [GetDbPorts.name, he]
  | none =>
    simp only [GetDbPorts.name, he]
    split
    · rename_i ht
      obtain ⟨s, hs⟩ := (h he).1 ht
      simp [hs, Value.assertString]
    · simp

theorem GetDbPorts_interfaces_no_panic {κ : Type} (row : Row κ) (columns : κ) (x : OvsPort)
    (h : (row.GetColumnValue "interfaces" columns).TagSound) :
    GetDbPorts.interfaces row columns x ≠ .panic := by
  cases he : (row.GetColumnValue "interfaces" columns).error with
  | some e => simp [GetDbPorts.interfaces, he]
  | none =>
    simp only [GetDbPorts.interfaces, he]
    split
    · rename_i ht
      obtain ⟨s, hs⟩ := (h he).2 ht
      simp [hs, Value.assertStrings]
    · split
      · rename_i ht
        obtain ⟨s, hs⟩ := (h he).1 ht
        simp [hs, Value.assertString]
      · simp

theorem GetDbPorts_body_no_panic {κ : Type} (row : Row κ) (columns : κ)
    (h : row.TagSound columns) : GetDbPorts.body row columns ≠ .panic := by
  unfold GetDbPorts.body GetDbPorts.scalars
  cases hu : GetDbPorts.uuid row columns with
  | ok x =>
    simp only [Outcome.bind]
    cases hn : GetDbPorts.name row columns x with
    | ok y => exact GetDbPorts_interfaces_no_panic row columns y (h "interfaces")
    | error e => simp [Outcome.bind]
    | panic => exact absurd hn (GetDbPorts_name_no_panic row columns x (h "name"))
  | error e => simp [Outcome.bind]
  | panic => exact absurd hu (GetDbPorts_uuid_no_panic row columns (h "_uuid"))

theorem GetDbBridges_body_ok {κ : Type} (row : Row κ) (columns : κ) (u : String)
    (hu : row.GetColumnValue "_uuid" columns = Lookup.ofString u)
    (hn : (row.GetColumnValue "name" columns).AcceptedScalar)
    (hp : (row.GetColumnValue "ports" columns).AcceptedList) :
    ∃ n ps, GetDbBridges.body row columns = .ok { UUID := u, Name := n, Ports := ps } ∧
      (row.GetColumnValue "name" columns).DecodesScalar n ∧
      (row.GetColumnValue "ports" columns).DecodesList ps := by
  have hscal : ∃ n, GetDbBridges.scalars row columns = .ok { UUID := u, Name := n } ∧
      (row.GetColumnValue "name" columns).DecodesScalar n := by
    rcases hn with hn | ⟨n, hn⟩
    · refine ⟨"", ?_, fun _ => rfl, ?_⟩
      · simp [GetDbBridges.scalars, GetDbBridges_uuid_ofString row columns u hu, Outcome.bind,
          GetDbBridges_name_error row columns _ hn]
      · intro n h; rw [h] at hn; simp [Lookup.ofString] at hn
    · refine ⟨n, ?_, ?_, ?_⟩
      · simp [GetDbBridges.scalars, GetDbBridges_uuid_ofString row columns u hu, Outcome.bind,
          GetDbBridges_name_ofString row columns _ n hn]
      · intro h; rw [hn] at h; simp [Lookup.ofString] at h
      · intro n2 h; rw [hn] at h; simp [Lookup.ofString] at h; exact h
  obtain ⟨n, hs, hdn⟩ := hscal
  rcases hp with hp | ⟨xs, hp⟩ | ⟨x, hp⟩
  · refine ⟨n, [], ?_, hdn, fun _ => rfl, ?_, ?_⟩
    · simp [GetDbBridges.body, hs, Outcome.bind, GetDbBridges_ports_error row columns _ hp]
    · intro xs h; rw [h] at hp; simp [Lookup.ofStrings] at hp
    · intro x h; rw [h] at hp; simp [Lookup.ofString] at hp
  · refine ⟨n, xs, ?_, hdn, ?_, ?_, ?_⟩
    · simp [GetDbBridges.body, hs, Outcome.bind, GetDbBridges_ports_ofStrings row columns _ xs hp]
    · intro h; rw [hp] at h; simp [Lookup.ofStrings] at h
    · intro ys h; rw [hp] at h; simp [Lookup.ofStrings] at h; exact h
    · intro y h; rw [hp] at h; simp [Lookup.ofStrings, Lookup.ofString] at h
  · refine ⟨n, [x], ?_, hdn, ?_, ?_, ?_⟩
    · simp [GetDbBridges.body, hs, Outcome.bind, GetDbBridges_ports_ofString row columns _ x hp]
    · intro h; rw [hp] at h; simp [Lookup.ofString] at h
    · intro ys h; rw [hp] at h; simp [Lookup.ofStrings, Lookup.ofString] at h
    · intro y h; rw [hp] at h; simp [Lookup.ofString] at h; simp [h]

theorem GetDbBridges_of_rows {σ κ : Type} (cli : OvsClient σ κ) (s s1 : σ) (res : Result κ)
    (ht : cli.Transact cli.Name "SELECT * FROM Bridge" s = ((res, none), s1))
    (hne : res.Rows ≠ []) :
    GetDbBridges cli s
      = (Outcome.collect (fun r => GetDbBridges.body r res.Columns) res.Rows [], s1) := by
  have hlen : res.Rows.length ≠ 0 := by simpa using hne
  simp only [GetDbBridges, ht]
  rw [if_neg hlen, GetDbBridges_loop_eq_collect]

theorem GetDbBridges_no_rows {σ κ : Type} (cli : OvsClient σ κ) (s s1 : σ) (res : Result κ)
    (ht : cli.Transact cli.Name "SELECT * FROM Bridge" s = ((res, none), s1))
    (he : res.Rows = []) :
    GetDbBridges cli s
      = (.error "the 'SELECT * FROM Bridge' query did not return any rows", s1) := by
  simp only [GetDbBridges, ht, he]
  rfl

theorem GetDbBridges_ok_rows {σ κ : Type} (cli : OvsClient σ κ) (s : σ) (out : List OvsBridge)
    (h : (GetDbBridges cli s).1 = .ok out) :
    ∃ res, (cli.Transact cli.Name "SELECT * FROM Bridge" s).1 = (res, none) ∧ res.Rows ≠ [] ∧
      Outcome.collect (fun r => GetDbBridges.body r res.Columns) res.Rows [] = .ok out := by
  rcases ht : cli.Transact cli.Name "SELECT * FROM Bridge" s with ⟨⟨res, err⟩, s1⟩
  cases err with
  | some e => simp [GetDbBridges, ht] at h
  | none =>
    by_cases hne : res.Rows = []
    · rw [GetDbBridges_no_rows cli s s1 res ht hne] at h; cases h
    · rw [GetDbBridges_of_rows cli s s1 res ht hne] at h
      exact ⟨res, rfl, hne, h⟩

theorem GetDbPorts_body_ok {κ : Type} (row : Row κ) (columns : κ) (u : String)
    (hu : row.GetColumnValue "_uuid" columns = Lookup.ofString u)
    (hn : (row.GetColumnValue "name" columns).AcceptedScalar)
    (hp : (row.GetColumnValue "interfaces" columns).AcceptedList) :
    ∃ n ps, GetDbPorts.body row columns = .ok { UUID := u, Name := n, Interfaces := ps } ∧
      (row.GetColumnValue "name" columns).DecodesScalar n ∧
      (row.GetColumnValue "interfaces" columns).DecodesList ps := by
  have hscal : ∃ n, GetDbPorts.scalars row columns = .ok { UUID := u, Name := n } ∧
      (row.GetColumnValue "name" columns).DecodesScalar n := by
    rcases hn with hn | ⟨n, hn⟩
    · refine ⟨"", ?_, fun _ => rfl, ?_⟩
      · simp [GetDbPorts.scalars, GetDbPorts_uuid_ofString row columns u hu, Outcome.bind,
          GetDbPorts_name_error row columns _ hn]
      · intro n h; rw [h] at hn; simp [Lookup.ofString] at hn
    · refine ⟨n, ?_, ?_, ?_⟩
      · simp [GetDbPorts.scalars, GetDbPorts_uuid_ofString row columns u hu, Outcome.bind,
          GetDbPorts_name_ofString row columns _ n hn]
      · intro h; rw [hn] at h; simp [Lookup.ofString] at h
      · intro n2 h; rw [hn] at h; simp [Lookup.ofString] at h; exact h
  obtain ⟨n, hs, hdn⟩ := hscal
  rcases hp with hp | ⟨xs, hp⟩ | ⟨x, hp⟩
  · refine ⟨n, [], ?_, hdn, fun _ => rfl, ?_, ?_⟩
    · simp [GetDbPorts.body, hs, Outcome.bind, GetDbPorts_interfaces_error row columns _ hp]
    · intro xs h; rw [h] at hp; simp [Lookup.ofStrings] at hp
    · intro x h; rw [h] at hp; simp [Lookup.ofString] at hp
  · refine ⟨n, xs, ?_, hdn, ?_, ?_, ?_⟩
    · simp [GetDbPorts.body, hs, Outcome.bind, GetDbPorts_interfaces_ofStrings row columns _ xs hp]
    · intro h; rw [hp] at h; simp [Lookup.ofStrings] at h
    · intro ys h; rw [hp] at h; simp [Lookup.ofStrings] at h; exact h
    · intro y h; rw [hp] at h; simp [Lookup.ofStrings, Lookup.ofString] at h
  · refine ⟨n, [x], ?_, hdn, ?_, ?_, ?_⟩
    · simp [GetDbPorts.body, hs, Outcome.bind, GetDbPorts_interfaces_ofString row columns _ x hp]
    · intro h; rw [hp] at h; simp [Lookup.ofString] at h
    · intro ys h; rw [hp] at h; simp [Lookup.ofStrings, Lookup.ofString] at h
    · intro y h; rw [hp] at h; simp [Lookup.ofString] at h; simp [h]

theorem GetDbPorts_of_rows {σ κ : Type} (cli : OvsClient σ κ) (s s1 : σ) (res : Result κ)
    (ht : cli.Transact cli.Name "SELECT * FROM Port" s = ((res, none), s1))
    (hne : res.Rows ≠ []) :
    GetDbPorts cli s
      = (Outcome.collect (fun r => GetDbPorts.body r res.Columns) res.Rows [], s1) := by
  have hlen : res.Rows.length ≠ 0 := by simpa using hne
  simp only [GetDbPorts, ht]
  rw [if_neg hlen, GetDbPorts_loop_eq_collect]

theorem GetDbPorts_no_rows {σ κ : Type} (cli : OvsClient σ κ) (s s1 : σ) (res : Result κ)
    (ht : cli.Transact cli.Name "SELECT * FROM Port" s = ((res, none), s1))
    (he : res.Rows = []) :
    GetDbPorts cli s
      = (.error "the 'SELECT * FROM Port' query did not return any rows", s1) := by
  simp only [GetDbPorts, ht, he]
  rfl

theorem GetDbPorts_ok_rows {σ κ : Type} (cli : OvsClient σ κ) (s : σ) (out : List OvsPort)
    (h : (GetDbPorts cli s).1 = .ok out) :
    ∃ res, (cli.Transact cli.Name "SELECT * FROM Port" s).1 = (res, none) ∧ res.Rows ≠ [] ∧
      Outcome.collect (fun r => GetDbPorts.body r res.Columns) res.Rows [] = .ok out := by
  rcases ht : cli.Transact cli.Name "SELECT * FROM Port" s with ⟨⟨res, err⟩, s1⟩
  cases err with
  | some e => simp [GetDbPorts, ht] at h
  | none =>
    by_cases hne : res.Rows = []
    · rw [GetDbPorts_no_rows cli s s1 res ht hne] at h; cases h
    · rw [GetDbPorts_of_rows cli s s1 res ht hne] at h
      exact ⟨res, rfl, hne, h⟩

theorem GetDbBridges_body_bad_uuid {κ : Type} (row : Row κ) (columns : κ)
    (h : (row.GetColumnValue "_uuid" columns).BadIdentifier) :
    ∃ e, GetDbBridges.body row columns = .error e := by
  obtain ⟨e, he⟩ := GetDbBridges_uuid_bad row columns h
  exact ⟨e, by simp [GetDbBridges.body, GetDbBridges.scalars, he, Outcome.bind]⟩

theorem GetDbBridges_body_wrong_shape {κ : Type} (row : Row κ) (columns : κ)
    (h : Row.WrongShape "ports" row columns) (b : OvsBridge) :
    GetDbBridges.body row columns ≠ .ok b := by
  obtain ⟨⟨u, hu⟩, hw⟩ := h
  rcases hw with ⟨he, ht⟩ | ⟨he, ht1, ht2⟩
  · simp [GetDbBridges.body, GetDbBridges.scalars, GetDbBridges_uuid_ofString row columns u hu,
      Outcome.bind, GetDbBridges_name_wrong_tag row columns _ he ht]
  · unfold GetDbBridges.body
    cases hs : GetDbBridges.scalars row columns with
    | ok x =>
      simp [Outcome.bind, GetDbBridges_ports_wrong_tag row columns x he ht1 ht2]
    | error e => simp [Outcome.bind]
    | panic => simp [Outcome.bind]

theorem GetDbPorts_body_bad_uuid {κ : Type} (row : Row κ) (columns : κ)
    (h : (row.GetColumnValue "_uuid" columns).BadIdentifier) :
    ∃ e, GetDbPorts.body row columns = .error e := by
  obtain ⟨e, he⟩ := GetDbPorts_uuid_bad row columns h
  exact ⟨e, by simp [GetDbPorts.body, GetDbPorts.scalars, he, Outcome.bind]⟩

theorem GetDbPorts_body_wrong_shape {κ : Type} (row : Row κ) (columns : κ)
    (h : Row.WrongShape "interfaces" row columns) (b : OvsPort) :
    GetDbPorts.body row columns ≠ .ok b := by
  obtain ⟨⟨u, hu⟩, hw⟩ := h
  rcases hw with ⟨he, ht⟩ | ⟨he, ht1, ht2⟩
  · simp [GetDbPorts.body, GetDbPorts.scalars, GetDbPorts_uuid_ofString row columns u hu,
      Outcome.bind, GetDbPorts_name_wrong_tag row columns _ he ht]
  · unfold GetDbPorts.body
    cases hs : GetDbPorts.scalars row columns with
    | ok x =>
      simp [Outcome.bind, GetDbPorts_interfaces_wrong_tag row columns x he ht1 ht2]
    | error e => simp [Outcome.bind]
    | panic => simp [Outcome.bind]

theorem GetDbBridges_fails_of_bad_row {σ κ : Type} (cli : OvsClient σ κ) (s s1 : σ)
    (res : Result κ)
    (ht : cli.Transact cli.Name "SELECT * FROM Bridge" s = ((res, none), s1))
    (hbad : ∃ r ∈ res.Rows, ∀ b, GetDbBridges.body r res.Columns ≠ .ok b) :
    (∀ out, (GetDbBridges cli s).1 ≠ .ok out) ∧
      ((∀ r ∈ res.Rows, r.TagSound res.Columns) → ∃ e, GetDbBridges cli s = (.error e, s1)) := by
  have hne : res.Rows ≠ [] := by
    obtain ⟨r, hr, _⟩ := hbad
    exact List.ne_nil_of_mem hr
  rw [GetDbBridges_of_rows cli s s1 res ht hne]
  constructor
  · intro out
    exact collect_not_ok _ res.Rows [] out hbad
  · intro hsound
    obtain ⟨e, he⟩ := collect_error (fun r => GetDbBridges.body r res.Columns) res.Rows []
      (fun r hr => GetDbBridges_body_no_panic r res.Columns (hsound r hr)) hbad
    exact ⟨e, by rw [he]⟩

theorem GetDbBridges_fails_at {σ κ : Type} (cli : OvsClient σ κ) (s s1 : σ)
    (res : Result κ) (pre post : List (Row κ)) (r : Row κ) (e : String)
    (ht : cli.Transact cli.Name "SELECT * FROM Bridge" s = ((res, none), s1))
    (hrows : res.Rows = pre ++ r :: post)
    (hpre : ∀ x ∈ pre, ∃ b, GetDbBridges.body x res.Columns = .ok b)
    (hr : GetDbBridges.body r res.Columns = .error e) :
    GetDbBridges cli s = (.error e, s1) := by
  have hne : res.Rows ≠ [] := by simp [hrows]
  rw [GetDbBridges_of_rows cli s s1 res ht hne, hrows,
    collect_error_at (fun r => GetDbBridges.body r res.Columns) pre post r [] e hpre hr]

theorem GetDbPorts_fails_of_bad_row {σ κ : Type} (cli : OvsClient σ κ) (s s1 : σ)
    (res : Result κ)
    (ht : cli.Transact cli.Name "SELECT * FROM Port" s = ((res, none), s1))
    (hbad : ∃ r ∈ res.Rows, ∀ b, GetDbPorts.body r res.Columns ≠ .ok b) :
    (∀ out, (GetDbPorts cli s).1 ≠ .ok out) ∧
      ((∀ r ∈ res.Rows, r.TagSound res.Columns) → ∃ e, GetDbPorts cli s = (.error e, s1)) := by
  have hne : res.Rows ≠ [] := by
    obtain ⟨r, hr, _⟩ := hbad
    exact List.ne_nil_of_mem hr
  rw [GetDbPorts_of_rows cli s s1 res ht hne]
  constructor
  · intro out
    exact collect_not_ok _ res.Rows [] out hbad
  · intro hsound
    obtain ⟨e, he⟩ := collect_error (fun r => GetDbPorts.body r res.Columns) res.Rows []
      (fun r hr => GetDbPorts_body_no_panic r res.Columns (hsound r hr)) hbad
    exact ⟨e, by rw [he]⟩

theorem GetDbPorts_fails_at {σ κ : Type} (cli : OvsClient σ κ) (s s1 : σ)
    (res : Result κ) (pre post : List (Row κ)) (r : Row κ) (e : String)
    (ht : cli.Transact cli.Name "SELECT * FROM Port" s = ((res, none), s1))
    (hrows : res.Rows = pre ++ r :: post)
    (hpre : ∀ x ∈ pre, ∃ b, GetDbPorts.body x res.Columns = .ok b)
    (hr : GetDbPorts.body r res.Columns = .error e) :
    GetDbPorts cli s = (.error e, s1) := by
  have hne : res.Rows ≠ [] := by simp [hrows]
  rw [GetDbPorts_of_rows cli s s1 res ht hne, hrows,
    collect_error_at (fun r => GetDbPorts.body r res.Columns) pre post r [] e hpre hr]

theorem collect_forall₂ {ρ β : Type} (f : ρ → Outcome β) (P : ρ → β → Prop) (rows : List ρ)
    (acc : List β) (h : ∀ r ∈ rows, ∃ b, f r = .ok b ∧ P r b) :
    ∃ recs, Outcome.collect f rows acc = .ok (acc ++ recs) ∧ List.Forall₂ P rows recs := by
  induction rows generalizing acc with
  | nil => exact ⟨[], by simp [Outcome.collect], List.Forall₂.nil⟩
  | cons r rest ih =>
    obtain ⟨b, hb, hP⟩ := h r (List.mem_cons_self _ _)
    obtain ⟨recs, hc, hf⟩ := ih (acc ++ [b]) (fun x hx => h x (List.mem_cons_of_mem _ hx))
    refine ⟨b :: recs, ?_, List.Forall₂.cons hP hf⟩
    simp only [Outcome.collect, hb, hc]
    simp

theorem GetDbBridges_ports_frame {κ : Type} (row : Row κ) (columns : κ) (x y : OvsBridge)
    (h : GetDbBridges.ports row columns x = .ok y) : y = { x with Ports := y.Ports } := by
  cases he : (row.GetColumnValue "ports" columns).error with
  | some e => simp [GetDbBridges.ports, he] at h; subst h; rfl
  | none =>
    simp only [GetDbBridges.ports, he] at h
    split at h
    · split at h
      · cases h; rfl
      · cases h
    · split at h
      · split at h
        · cases h; rfl
        · cases h
      · cases h

theorem GetDbBridges_uuid_lookup {κ : Type} (row : Row κ) (columns : κ) (x : OvsBridge)
    (h : GetDbBridges.uuid row columns = .ok x) :
    row.GetColumnValue "_uuid" columns = Lookup.ofString x.UUID := by
  rcases hl : row.GetColumnValue "_uuid" columns with ⟨data, dataType, error⟩
  cases error with
  | some e => simp [GetDbBridges.uuid, hl] at h
  | none =>
    simp only [GetDbBridges.uuid, hl] at h
    split at h
    · cases h
    · rename_i ht
      cases data with
      | string v =>
        simp only [Value.assertString] at h
        cases h
        simp [Lookup.ofString, not_not.mp ht]
      | null => simp [Value.assertString] at h
      | strings l => simp [Value.assertString] at h
      | bool b => simp [Value.assertString] at h
      | int n => simp [Value.assertString] at h
      | stringMap m => simp [Value.assertString] at h

theorem GetDbBridges_body_shape {κ : Type} (row : Row κ) (columns : κ) (b : OvsBridge)
    (h : GetDbBridges.body row columns = .ok b) :
    b = { UUID := b.UUID, Name := b.Name, Ports := b.Ports } ∧
      row.GetColumnValue "_uuid" columns = Lookup.ofString b.UUID := by
  unfold GetDbBridges.body GetDbBridges.scalars at h
  cases hu : GetDbBridges.uuid row columns with
  | ok x =>
    rw [hu] at h
    simp only [Outcome.bind] at h
    cases hn : GetDbBridges.name row columns x with
    | ok y =>
      rw [hn] at h
      simp only [Outcome.bind] at h
      have h1 := GetDbBridges_uuid_fresh row columns x hu
      have h2 := GetDbBridges_name_frame row columns x y hn
      have h3 := GetDbBridges_ports_frame row columns y b h
      have h4 := GetDbBridges_uuid_lookup row columns x hu
      have hb : b = { UUID := x.UUID, Name := y.Name, Ports := b.Ports } := by
        rw [h3, h2, h1]
      constructor
      · rw [hb]
      · rw [hb]; exact h4
    | error e => rw [hn] at h; cases h
    | panic => rw [hn] at h; cases h
  | error e => rw [hu] at h; cases h
  | panic => rw [hu] at h; cases h

theorem GetDbBridges_body_congr {κ : Type} (c1 c2 : κ) (r1 r2 : Row κ)
    (h : Row.AgreeOn ["_uuid", "name", "ports"] c1 c2 r1 r2) :
    GetDbBridges.body r1 c1 = GetDbBridges.body r2 c2 := by
  have hu := h "_uuid" (by simp)
  have hn := h "name" (by simp)
  have hf := h "ports" (by simp)
  have e1 : GetDbBridges.uuid r1 c1 = GetDbBridges.uuid r2 c2 := by simp only [GetDbBridges.uuid, hu]
  have e2 : GetDbBridges.name r1 c1 = GetDbBridges.name r2 c2 := by
    funext x; simp only [GetDbBridges.name, hn]
  have e3 : GetDbBridges.ports r1 c1 = GetDbBridges.ports r2 c2 := by
    funext x; simp only [GetDbBridges.ports, hf]
  simp only [GetDbBridges.body, GetDbBridges.scalars, e1, e2, e3]

theorem GetDbPorts_interfaces_frame {κ : Type} (row : Row κ) (columns : κ) (x y : OvsPort)
    (h : GetDbPorts.interfaces row columns x = .ok y) : y = { x with Interfaces := y.Interfaces } := by
  cases he : (row.GetColumnValue "interfaces" columns).error with
  | some e => simp [GetDbPorts.interfaces, he] at h; subst h; rfl
  | none =>
    simp only [GetDbPorts.interfaces, he] at h
    split at h
    · split at h
      · cases h; rfl
      · cases h
    · split at h
      · split at h
        · cases h; rfl
        · cases h
      · cases h

theorem GetDbPorts_uuid_lookup {κ : Type} (row : Row κ) (columns : κ) (x : OvsPort)
    (h : GetDbPorts.uuid row columns = .ok x) :
    row.GetColumnValue "_uuid" columns = Lookup.ofString x.UUID := by
  rcases hl : row.GetColumnValue "_uuid" columns with ⟨data, dataType, error⟩
  cases error with
  | some e => simp [GetDbPorts.uuid, hl] at h
  | none =>
    simp only [GetDbPorts.uuid, hl] at h
    split at h
    · cases h
    · rename_i ht
      cases data with
      | string v =>
        simp only [Value.assertString] at h
        cases h
        simp [Lookup.ofString, not_not.mp ht]
      | null => simp [Value.assertString] at h
      | strings l => simp [Value.assertString] at h
      | bool b => simp [Value.assertString] at h
      | int n => simp [Value.assertString] at h
      | stringMap m => simp [Value.assertString] at h

theorem GetDbPorts_body_shape {κ : Type} (row : Row κ) (columns : κ) (b : OvsPort)
    (h : GetDbPorts.body row columns = .ok b) :
    b = { UUID := b.UUID, Name := b.Name, Interfaces := b.Interfaces } ∧
      row.GetColumnValue "_uuid" columns = Lookup.ofString b.UUID := by
  unfold GetDbPorts.body GetDbPorts.scalars at h
  cases hu : GetDbPorts.uuid row columns with
  | ok x =>
    rw [hu] at h
    simp only [Outcome.bind] at h
    cases hn : GetDbPorts.name row columns x with
    | ok y =>
      rw [hn] at h
      simp only [Outcome.bind] at h
      have h1 := GetDbPorts_uuid_fresh row columns x hu
      have h2 := GetDbPorts_name_frame row columns x y hn
      have h3 := GetDbPorts_interfaces_frame row columns y b h
      have h4 := GetDbPorts_uuid_lookup row columns x hu
      have hb : b = { UUID := x.UUID, Name := y.Name, Interfaces := b.Interfaces } := by
        rw [h3, h2, h1]
      constructor
      · rw [hb]
      · rw [hb]; exact h4
    | error e => rw [hn] at h; cases h
    | panic => rw [hn] at h; cases h
  | error e => rw [hu] at h; cases h
  | panic => rw [hu] at h; cases h

theorem GetDbPorts_body_congr {κ : Type} (c1 c2 : κ) (r1 r2 : Row κ)
    (h : Row.AgreeOn ["_uuid", "name", "interfaces"] c1 c2 r1 r2) :
    GetDbPorts.body r1 c1 = GetDbPorts.body r2 c2 := by
  have hu := h "_uuid" (by simp)
  have hn := h "name" (by simp)
  have hf := h "interfaces" (by simp)
  have e1 : GetDbPorts.uuid r1 c1 = GetDbPorts.uuid r2 c2 := by simp only [GetDbPorts.uuid, hu]
  have e2 : GetDbPorts.name r1 c1 = GetDbPorts.name r2 c2 := by
    funext x; simp only [GetDbPorts.name, hn]
  have e3 : GetDbPorts.interfaces r1 c1 = GetDbPorts.interfaces r2 c2 := by
    funext x; simp only [GetDbPorts.interfaces, hf]
  simp only [GetDbPorts.body, GetDbPorts.scalars, e1, e2, e3]

theorem collect_congr {ρ β : Type} (f g : ρ → Outcome β) (rows1 rows2 : List ρ) (acc : List β)
    (h : List.Forall₂ (fun r1 r2 => f r1 = g r2) rows1 rows2) :
    Outcome.collect f rows1 acc = Outcome.collect g rows2 acc := by
  induction h generalizing acc with
  | nil => rfl
  | cons hab _ ih =>
    simp only [Outcome.collect, hab]
    split
    · exact ih _
    · rfl
    · rfl

/-! ## Lemmas on the join -/

theorem perPort_apply (name : String) (is : List String) (m : GoMap String) (k : String) :
    GetAllInterfacesToBridges.perPort name m is k = if k ∈ is then some name else m k := by
  induction is generalizing m with
  | nil => simp [GetAllInterfacesToBridges.perPort]
  | cons i rest ih =>
    have h := ih (m.set i name)
    simp only [GetAllInterfacesToBridges.perPort, List.foldl_cons] at h ⊢
    rw [h]
    by_cases hk : k ∈ rest
    · simp [hk]
    · by_cases hi : k = i
      · simp [hi, GoMap.set]
      · simp [hk, hi, GoMap.set]

theorem perBridge_fold_reach (p2i : GoMap (List String)) (name : String) (ps : List String)
    (m : GoMap String) (k : String) (h : ∃ p ∈ ps, k ∈ p2i.index p) :
    ps.foldl (fun m p => GetAllInterfacesToBridges.perPort name m (p2i.index p)) m k
      = some name := by
  induction ps generalizing m with
  | nil => simp at h
  | cons p rest ih =>
    simp only [List.foldl_cons]
    by_cases hr : ∃ q ∈ rest, k ∈ p2i.index q
    · exact ih _ hr
    · obtain ⟨q, hq, hk⟩ := h
      have hqp : q = p := by
        rcases List.mem_cons.mp hq with h1 | h1
        · exact h1
        · exact absurd ⟨q, h1, hk⟩ hr
      subst hqp
      have hskip : ∀ (l : List String) (m0 : GoMap String),
          (∀ x ∈ l, k ∉ p2i.index x) → m0 k = some name →
          l.foldl (fun m p => GetAllInterfacesToBridges.perPort name m (p2i.index p)) m0 k
            = some name := by
        intro l
        induction l with
        | nil => intro m0 _ h0; simpa using h0
        | cons x xs ihx =>
          intro m0 hx h0
          simp only [List.foldl_cons]
          apply ihx
          · intro y hy; exact hx y (List.mem_cons_of_mem _ hy)
          · rw [perPort_apply]; simp [hx x (List.mem_cons_self _ _), h0]
      apply hskip
      · intro x hx hkx; exact hr ⟨x, hx, hkx⟩
      · rw [perPort_apply]; simp [hk]

theorem perBridge_fold_skip (p2i : GoMap (List String)) (name : String) (ps : List String)
    (m : GoMap String) (k : String) (h : ∀ p ∈ ps, k ∉ p2i.index p) :
    ps.foldl (fun m p => GetAllInterfacesToBridges.perPort name m (p2i.index p)) m k = m k := by
  induction ps generalizing m with
  | nil => rfl
  | cons p rest ih =>
    simp only [List.foldl_cons]
    rw [ih _ (fun q hq => h q (List.mem_cons_of_mem _ hq)), perPort_apply]
    simp [h p (List.mem_cons_self _ _)]

theorem perBridge_reach (p2i : GoMap (List String)) (m : GoMap String) (b : OvsBridge)
    (k : String) (h : Reaches p2i b k) :
    GetAllInterfacesToBridges.perBridge p2i m b k = some b.Name :=
  perBridge_fold_reach p2i b.Name b.Ports m k h

theorem perBridge_skip (p2i : GoMap (List String)) (m : GoMap String) (b : OvsBridge)
    (k : String) (h : ¬ Reaches p2i b k) :
    GetAllInterfacesToBridges.perBridge p2i m b k = m k :=
  perBridge_fold_skip p2i b.Name b.Ports m k (fun p hp hk => h ⟨p, hp, hk⟩)

theorem join_eq_foldl (bs : List OvsBridge) (p2i : GoMap (List String)) :
    GetAllInterfacesToBridges.join bs p2i
      = bs.foldl (GetAllInterfacesToBridges.perBridge p2i) GoMap.empty := rfl

theorem foldl_perBridge_skip (p2i : GoMap (List String)) (bs : List OvsBridge)
    (m : GoMap String) (k : String) (h : ∀ b ∈ bs, ¬ Reaches p2i b k) :
    bs.foldl (GetAllInterfacesToBridges.perBridge p2i) m k = m k := by
  induction bs generalizing m with
  | nil => rfl
  | cons b rest ih =>
    simp only [List.foldl_cons]
    rw [ih _ (fun c hc => h c (List.mem_cons_of_mem _ hc)),
      perBridge_skip p2i m b k (h b (List.mem_cons_self _ _))]

theorem foldl_perBridge_last (p2i : GoMap (List String)) (pre post : List OvsBridge)
    (b : OvsBridge) (m : GoMap String) (k : String) (hb : Reaches p2i b k)
    (hpost : ∀ c ∈ post, ¬ Reaches p2i c k) :
    (pre ++ b :: post).foldl (GetAllInterfacesToBridges.perBridge p2i) m k = some b.Name := by
  rw [List.foldl_append, List.foldl_cons, foldl_perBridge_skip p2i post _ k hpost,
    perBridge_reach p2i _ b k hb]

theorem exists_last {α : Type} (P : α → Prop) (l : List α) (h : ∃ a ∈ l, P a) :
    ∃ pre a post, l = pre ++ a :: post ∧ P a ∧ ∀ x ∈ post, ¬ P x := by
  induction l with
  | nil => simp at h
  | cons a t ih =>
    by_cases ht : ∃ x ∈ t, P x
    · obtain ⟨pre, c, post, hl, hc, hp⟩ := ih ht
      exact ⟨a :: pre, c, post, by simp [hl], hc, hp⟩
    · obtain ⟨x, hx, hPx⟩ := h
      rcases List.mem_cons.mp hx with h1 | h1
      · subst h1
        exact ⟨[], x, t, rfl, hPx, fun y hy hPy => ht ⟨y, hy, hPy⟩⟩
      · exact absurd ⟨x, h1, hPx⟩ ht

/-! ## Lemmas on the composed call -/

theorem build_foldl_absent (ps : List OvsPort) (m : GoMap (List String)) (p : String)
    (h : ∀ q ∈ ps, q.UUID ≠ p) :
    ps.foldl (fun acc port => acc.set port.UUID port.Interfaces) m p = m p := by
  induction ps generalizing m with
  | nil => rfl
  | cons q rest ih =>
    simp only [List.foldl_cons]
    rw [ih _ (fun x hx => h x (List.mem_cons_of_mem _ hx))]
    have hq : p ≠ q.UUID := fun e => h q (List.mem_cons_self _ _) e.symm
    simp [GoMap.set, hq]

theorem build_absent (ps : List OvsPort) (p : String) (h : ∀ q ∈ ps, q.UUID ≠ p) :
    GetAllPortsToInterfaces.build ps p = none :=
  build_foldl_absent ps GoMap.empty p h

theorem GetAllInterfacesToBridges_ok {σ κ : Type} (cli : OvsClient σ κ) (s s1 s2 : σ)
    (bs : List OvsBridge) (ps : List OvsPort)
    (hb : GetDbBridges cli s = (.ok bs, s1)) (hp : GetDbPorts cli s1 = (.ok ps, s2)) :
    GetAllInterfacesToBridges cli s
      = (.ok (GetAllInterfacesToBridges.join bs (GetAllPortsToInterfaces.build ps)), s2) := by
  simp [GetAllInterfacesToBridges, GetAllPortsToInterfaces, hb, hp]

theorem GetDbBridges_congr {σ τ κ : Type} (cli : OvsClient σ κ) (cli2 : OvsClient τ κ)
    (s : σ) (t : τ)
    (h : (cli2.Transact cli2.Name "SELECT * FROM Bridge" t).1
      = (cli.Transact cli.Name "SELECT * FROM Bridge" s).1) :
    (GetDbBridges cli2 t).1 = (GetDbBridges cli s).1 ∧
      (GetDbBridges cli2 t).2 = (cli2.Transact cli2.Name "SELECT * FROM Bridge" t).2 := by
  rcases h1 : cli.Transact cli.Name "SELECT * FROM Bridge" s with ⟨⟨res, err⟩, s1⟩
  rcases h2 : cli2.Transact cli2.Name "SELECT * FROM Bridge" t with ⟨⟨res2, err2⟩, t1⟩
  rw [h1, h2] at h
  simp only [Prod.mk.injEq] at h
  obtain ⟨rfl, rfl⟩ := h
  cases err2 with
  | some e => simp [GetDbBridges, h1, h2]
  | none =>
    simp only [GetDbBridges, h1, h2]
    split <;> simp

theorem GetDbPorts_congr {σ τ κ : Type} (cli : OvsClient σ κ) (cli2 : OvsClient τ κ)
    (s : σ) (t : τ)
    (h : (cli2.Transact cli2.Name "SELECT * FROM Port" t).1
      = (cli.Transact cli.Name "SELECT * FROM Port" s).1) :
    (GetDbPorts cli2 t).1 = (GetDbPorts cli s).1 ∧
      (GetDbPorts cli2 t).2 = (cli2.Transact cli2.Name "SELECT * FROM Port" t).2 := by
  rcases h1 : cli.Transact cli.Name "SELECT * FROM Port" s with ⟨⟨res, err⟩, s1⟩
  rcases h2 : cli2.Transact cli2.Name "SELECT * FROM Port" t with ⟨⟨res2, err2⟩, t1⟩
  rw [h1, h2] at h
  simp only [Prod.mk.injEq] at h
  obtain ⟨rfl, rfl⟩ := h
  cases err2 with
  | some e => simp [GetDbPorts, h1, h2]
  | none =>
    simp only [GetDbPorts, h1, h2]
    split <;> simp

theorem foldl_filter_of_noop {α β : Type} (f : β → α → β) (keep : α → Bool) (l : List α)
    (m : β) (h : ∀ acc a, keep a = false → f acc a = acc) :
    l.foldl f m = (l.filter keep).foldl f m := by
  induction l generalizing m with
  | nil => rfl
  | cons a rest ih =>
    cases hk : keep a with
    | true => simp [List.filter, hk, ih]
    | false => simp [List.filter, hk, h m a hk, ih]

theorem perBridge_filter_dangling (p2i : GoMap (List String)) (m : GoMap String)
    (b : OvsBridge) (p : String) (h : p2i p = none) :
    GetAllInterfacesToBridges.perBridge p2i m b
      = GetAllInterfacesToBridges.perBridge p2i m
          { b with Ports := b.Ports.filter (fun q => decide (q ≠ p)) } := by
  simp only [GetAllInterfacesToBridges.perBridge]
  apply foldl_filter_of_noop
  intro acc a ha
  have hap : a = p := by simpa using ha
  subst hap
  simp [GoMap.index, h, GetAllInterfacesToBridges.perPort]

/-! ## The claims -/

/-- C1: when both materializations succeed, `GetAllInterfacesToBridges` returns a map whose
keys are exactly the interface ids reachable from some bridge through one of its ports, each
mapped to the name of a bridge that reaches it; on the fixture with bridges `B1` (port `P1`)
and `B2` (port `P2`), ports `P1` (interfaces `I1`, `I2`) and `P2` (interface `I3`), the map is
exactly `{I1: B1, I2: B1, I3: B2}`. -/
theorem C1_interfaces_to_bridges_reference {σ κ : Type} (cli : OvsClient σ κ) (s s1 s2 : σ)
    (bs : List OvsBridge) (ps : List OvsPort)
    (hb : GetDbBridges cli s = (.ok bs, s1)) (hp : GetDbPorts cli s1 = (.ok ps, s2)) :
    ∃ m, GetAllInterfacesToBridges cli s = (.ok m, s2) ∧
      (∀ i, (m i).isSome ↔ ∃ b ∈ bs, Reaches (GetAllPortsToInterfaces.build ps) b i) ∧
      (∀ i v, m i = some v →
        ∃ b ∈ bs, Reaches (GetAllPortsToInterfaces.build ps) b i ∧ v = b.Name) ∧
      (∀ b1 b2 p1 p2 i1 i2 i3, bs = [b1, b2] → ps = [p1, p2] →
        b1.Ports = [p1.UUID] → b2.Ports = [p2.UUID] → p1.UUID ≠ p2.UUID →
        p1.Interfaces = [i1, i2] → p2.Interfaces = [i3] →
        m = ((GoMap.empty.set i1 b1.Name).set i2 b1.Name).set i3 b2.Name) := by
  refine ⟨_, GetAllInterfacesToBridges_ok cli s s1 s2 bs ps hb hp, ?_, ?_, ?_⟩
  · intro i
    rw [join_eq_foldl]
    constructor
    · intro h
      by_contra hno
      have hskip := foldl_perBridge_skip (GetAllPortsToInterfaces.build ps) bs GoMap.empty i
        (fun b hbm hr => hno ⟨b, hbm, hr⟩)
      rw [hskip] at h
      simp [GoMap.empty] at h
    · intro h
      obtain ⟨pre, b, post, hl, hr, hpost⟩ :=
        exists_last (fun b => Reaches (GetAllPortsToInterfaces.build ps) b i) bs h
      rw [hl, foldl_perBridge_last _ pre post b _ i hr hpost]
      rfl
  · intro i v hv
    rw [join_eq_foldl] at hv
    by_cases h : ∃ b ∈ bs, Reaches (GetAllPortsToInterfaces.build ps) b i
    · obtain ⟨pre, b, post, hl, hr, hpost⟩ :=
        exists_last (fun b => Reaches (GetAllPortsToInterfaces.build ps) b i) bs h
      rw [hl, foldl_perBridge_last _ pre post b _ i hr hpost] at hv
      refine ⟨b, by simp [hl], hr, ?_⟩
      exact (Option.some.inj hv).symm
    · have hskip := foldl_perBridge_skip (GetAllPortsToInterfaces.build ps) bs GoMap.empty i
        (fun b hbm hr => h ⟨b, hbm, hr⟩)
      rw [hskip] at hv
      simp [GoMap.empty] at hv
  · intro b1 b2 p1 p2 i1 i2 i3 hbs hps h1 h2 hne hi1 hi2
    subst hbs hps
    funext k
    have hne2 : p2.UUID ≠ p1.UUID := fun e => hne e.symm
    simp [GetAllInterfacesToBridges.join, GetAllPortsToInterfaces.build, GoMap.index,
      GoMap.set, GoMap.empty, h1, h2, hi1, hi2, hne, hne2]

/-- Witness for C1 on the two-bridge fixture, run end to end through `Transact`. -/
theorem C1_interfaces_to_bridges_reference_witness :
    ∃ m, GetAllInterfacesToBridges fixtureClient []
        = (.ok m, ["SELECT * FROM Bridge", "SELECT * FROM Port"]) ∧
      m = ((GoMap.empty.set "I1" "B1").set "I2" "B1").set "I3" "B2" := by
  obtain ⟨m, hm, _, _, hex⟩ := C1_interfaces_to_bridges_reference fixtureClient []
    ["SELECT * FROM Bridge"] ["SELECT * FROM Bridge", "SELECT * FROM Port"]
    [{ UUID := "b1", Name := "B1", Ports := ["P1"] },
     { UUID := "b2", Name := "B2", Ports := ["P2"] }]
    [{ UUID := "P1", Name := "p1", Interfaces := ["I1", "I2"] },
     { UUID := "P2", Name := "p2", Interfaces := ["I3"] }] rfl rfl
  exact ⟨m, hm, hex _ _ _ _ "I1" "I2" "I3" rfl rfl rfl rfl (by decide) rfl rfl⟩

/-- C2: last write wins. When an interface is reached by bridge `b` and by no bridge after
`b` in the materialized Bridge order, the returned map sends it to `b.Name`; and any other
run whose Bridge query and Port query hand back the same results returns the same map. -/
theorem C2_last_write_wins {σ κ : Type} (cli : OvsClient σ κ) (s s1 s2 : σ)
    (bs : List OvsBridge) (ps : List OvsPort)
    (hb : GetDbBridges cli s = (.ok bs, s1)) (hp : GetDbPorts cli s1 = (.ok ps, s2))
    (pre post : List OvsBridge) (b : OvsBridge) (i : String)
    (hbs : bs = pre ++ b :: post)
    (hreach : Reaches (GetAllPortsToInterfaces.build ps) b i)
    (hlast : ∀ c ∈ post, ¬ Reaches (GetAllPortsToInterfaces.build ps) c i) :
    ∃ m, GetAllInterfacesToBridges cli s = (.ok m, s2) ∧ m i = some b.Name ∧
      ∀ (τ : Type) (cli2 : OvsClient τ κ) (t : τ),
        (cli2.Transact cli2.Name "SELECT * FROM Bridge" t).1
          = (cli.Transact cli.Name "SELECT * FROM Bridge" s).1 →
        (cli2.Transact cli2.Name "SELECT * FROM Port"
            (cli2.Transact cli2.Name "SELECT * FROM Bridge" t).2).1
          = (cli.Transact cli.Name "SELECT * FROM Port" s1).1 →
        (GetAllInterfacesToBridges cli2 t).1 = .ok m := by
  refine ⟨_, GetAllInterfacesToBridges_ok cli s s1 s2 bs ps hb hp, ?_, ?_⟩
  · rw [join_eq_foldl, hbs]
    exact foldl_perBridge_last _ pre post b _ i hreach hlast
  · intro τ cli2 t hB hP
    obtain ⟨hb1, hb2⟩ := GetDbBridges_congr cli cli2 s t hB
    rw [← hb2] at hP
    obtain ⟨hp1, _⟩ := GetDbPorts_congr cli cli2 s1 (GetDbBridges cli2 t).2 hP
    rw [hb] at hb1
    rw [hp] at hp1
    rcases hx : GetDbBridges cli2 t with ⟨ob, t1⟩
    rw [hx] at hb1 hp1
    simp only at hb1 hp1
    subst hb1
    rcases hy : GetDbPorts cli2 t1 with ⟨op, t2⟩
    rw [hy] at hp1
    simp only at hp1
    subst hp1
    rw [GetAllInterfacesToBridges_ok cli2 t t1 t2 bs ps hx hy]

/-- Witness for C2: interface `I1` is reached by both bridges and ends up under `B2`. -/
theorem C2_last_write_wins_witness :
    ∃ m, GetAllInterfacesToBridges (OvsClient.ofTables sharedPortBridgeRows fixturePortRows) []
        = (.ok m, ["SELECT * FROM Bridge", "SELECT * FROM Port"]) ∧
      m "I1" = some "B2" := by
  obtain ⟨m, hm, hi, _⟩ := C2_last_write_wins
    (OvsClient.ofTables sharedPortBridgeRows fixturePortRows) []
    ["SELECT * FROM Bridge"] ["SELECT * FROM Bridge", "SELECT * FROM Port"]
    [{ UUID := "b1", Name := "B1", Ports := ["P1"] },
     { UUID := "b2", Name := "B2", Ports := ["P1", "P2"] }]
    [{ UUID := "P1", Name := "p1", Interfaces := ["I1", "I2"] },
     { UUID := "P2", Name := "p2", Interfaces := ["I3"] }] rfl rfl
    [{ UUID := "b1", Name := "B1", Ports := ["P1"] }] []
    { UUID := "b2", Name := "B2", Ports := ["P1", "P2"] } "I1" rfl
    ⟨"P1", by simp, by decide⟩ (by simp)
  exact ⟨m, hm, hi⟩

/-- C3: a port id in a bridge's `Ports` that is the UUID of no materialized Port is
tolerated: the call succeeds, the id has no interfaces to contribute, and the returned map
equals the one obtained after deleting that id from the bridge's `Ports`. -/
theorem C3_dangling_port_tolerated {σ κ : Type} (cli : OvsClient σ κ) (s s1 s2 : σ)
    (bs : List OvsBridge) (ps : List OvsPort)
    (hb : GetDbBridges cli s = (.ok bs, s1)) (hp : GetDbPorts cli s1 = (.ok ps, s2))
    (pre post : List OvsBridge) (b : OvsBridge) (p : String)
    (hbs : bs = pre ++ b :: post) (_hmem : p ∈ b.Ports)
    (hdangling : ∀ q ∈ ps, q.UUID ≠ p) :
    GetAllInterfacesToBridges cli s
        = (.ok (GetAllInterfacesToBridges.join bs (GetAllPortsToInterfaces.build ps)), s2) ∧
      (GetAllPortsToInterfaces.build ps).index p = [] ∧
      GetAllInterfacesToBridges.join bs (GetAllPortsToInterfaces.build ps)
        = GetAllInterfacesToBridges.join
            (pre ++ { b with Ports := b.Ports.filter (fun q => decide (q ≠ p)) } :: post)
            (GetAllPortsToInterfaces.build ps) := by
  have hnone := build_absent ps p hdangling
  refine ⟨GetAllInterfacesToBridges_ok cli s s1 s2 bs ps hb hp, ?_, ?_⟩
  · simp [GoMap.index, hnone]
  · rw [join_eq_foldl, join_eq_foldl, hbs]
    simp only [List.foldl_append, List.foldl_cons]
    rw [← perBridge_filter_dangling _ _ b p hnone]

/-- Witness for C3: `P9` is dangling and the call still succeeds, as if `P9` were not listed. -/
theorem C3_dangling_port_tolerated_witness :
    GetAllInterfacesToBridges (OvsClient.ofTables danglingBridgeRows fixturePortRows) []
        = (.ok (GetAllInterfacesToBridges.join
              [{ UUID := "b1", Name := "B1", Ports := ["P1"] }]
              (GetAllPortsToInterfaces.build
                [{ UUID := "P1", Name := "p1", Interfaces := ["I1", "I2"] },
                 { UUID := "P2", Name := "p2", Interfaces := ["I3"] }])),
            ["SELECT * FROM Bridge", "SELECT * FROM Port"]) := by
  obtain ⟨h1, _, h3⟩ := C3_dangling_port_tolerated
    (OvsClient.ofTables danglingBridgeRows fixturePortRows) []
    ["SELECT * FROM Bridge"] ["SELECT * FROM Bridge", "SELECT * FROM Port"]
    [{ UUID := "b1", Name := "B1", Ports := ["P1", "P9"] }]
    [{ UUID := "P1", Name := "p1", Interfaces := ["I1", "I2"] },
     { UUID := "P2", Name := "p2", Interfaces := ["I3"] }] rfl rfl
    [] [] { UUID := "b1", Name := "B1", Ports := ["P1", "P9"] } "P9" rfl (by simp)
    (by decide)
  rw [h1, h3]
  rfl

/-- C4: set collapsing is normalised. For the `ports` column of `GetDbBridges` and the
`interfaces` column of `GetDbPorts`, a row whose column is the bare string `s` decodes to the
record of its scalar columns with the list field `[s]`, a row whose column is the list `l`
decodes with the list field `l` unchanged, and so a bare `s` and the one-element list `[s]`
give the same record. -/
theorem C4_set_collapsing {κ : Type} (columns : κ) (b1 b2 p1 p2 : Row κ) (s : String)
    (l : List String)
    (hb1 : b1.GetColumnValue "ports" columns = ⟨.string s, "string", none⟩)
    (hb2 : b2.GetColumnValue "ports" columns = ⟨.strings l, "[]string", none⟩)
    (hp1 : p1.GetColumnValue "interfaces" columns = ⟨.string s, "string", none⟩)
    (hp2 : p2.GetColumnValue "interfaces" columns = ⟨.strings l, "[]string", none⟩) :
    GetDbBridges.body b1 columns
        = (GetDbBridges.scalars b1 columns).map (fun b => { b with Ports := [s] }) ∧
      GetDbBridges.body b2 columns
        = (GetDbBridges.scalars b2 columns).map (fun b => { b with Ports := l }) ∧
      (l = [s] → GetDbBridges.scalars b1 columns = GetDbBridges.scalars b2 columns →
        GetDbBridges.body b1 columns = GetDbBridges.body b2 columns) ∧
      GetDbPorts.body p1 columns
        = (GetDbPorts.scalars p1 columns).map (fun p => { p with Interfaces := [s] }) ∧
      GetDbPorts.body p2 columns
        = (GetDbPorts.scalars p2 columns).map (fun p => { p with Interfaces := l }) ∧
      (l = [s] → GetDbPorts.scalars p1 columns = GetDbPorts.scalars p2 columns →
        GetDbPorts.body p1 columns = GetDbPorts.body p2 columns) := by
  have e1 : GetDbBridges.body b1 columns
      = (GetDbBridges.scalars b1 columns).map (fun b => { b with Ports := [s] }) := by
    unfold GetDbBridges.body
    cases hs : GetDbBridges.scalars b1 columns with
    | ok x =>
      simp only [Outcome.bind, Outcome.map]
      rw [GetDbBridges_ports_ofString b1 columns x s hb1,
        GetDbBridges_scalars_Ports b1 columns x hs]
      rfl
    | error e => rfl
    | panic => rfl
  have e2 : GetDbBridges.body b2 columns
      = (GetDbBridges.scalars b2 columns).map (fun b => { b with Ports := l }) := by
    unfold GetDbBridges.body
    cases hs : GetDbBridges.scalars b2 columns with
    | ok x =>
      simp only [Outcome.bind, Outcome.map]
      rw [GetDbBridges_ports_ofStrings b2 columns x l hb2]
    | error e => rfl
    | panic => rfl
  have e3 : GetDbPorts.body p1 columns
      = (GetDbPorts.scalars p1 columns).map (fun p => { p with Interfaces := [s] }) := by
    unfold GetDbPorts.body
    cases hs : GetDbPorts.scalars p1 columns with
    | ok x =>
      simp only [Outcome.bind, Outcome.map]
      rw [GetDbPorts_interfaces_ofString p1 columns x s hp1,
        GetDbPorts_scalars_Interfaces p1 columns x hs]
      rfl
    | error e => rfl
    | panic => rfl
  have e4 : GetDbPorts.body p2 columns
      = (GetDbPorts.scalars p2 columns).map (fun p => { p with Interfaces := l }) := by
    unfold GetDbPorts.body
    cases hs : GetDbPorts.scalars p2 columns with
    | ok x =>
      simp only [Outcome.bind, Outcome.map]
      rw [GetDbPorts_interfaces_ofStrings p2 columns x l hp2]
    | error e => rfl
    | panic => rfl
  refine ⟨e1, e2, ?_, e3, e4, ?_⟩
  · intro hl hsc; rw [e1, e2, hl, hsc]
  · intro hl hsc; rw [e3, e4, hl, hsc]

/-- Witness for C4: the bare string `P1` and the list `[P1]` give the same bridge, and the
bare string `I3` and the list `[I3]` give the same port. -/
theorem C4_set_collapsing_witness :
    GetDbBridges.body (Row.ofCells [("_uuid", .ofString "b1"), ("name", .ofString "B1"),
        ("ports", .ofString "U1")]) ()
      = .ok { UUID := "b1", Name := "B1", Ports := ["U1"] } ∧
    GetDbBridges.body (Row.ofCells [("_uuid", .ofString "b1"), ("name", .ofString "B1"),
        ("ports", .ofStrings ["U1"])]) ()
      = .ok { UUID := "b1", Name := "B1", Ports := ["U1"] } ∧
    GetDbPorts.body (Row.ofCells [("_uuid", .ofString "P2"), ("interfaces", .ofString "U1")]) ()
      = GetDbPorts.body
          (Row.ofCells [("_uuid", .ofString "P2"), ("interfaces", .ofStrings ["U1"])]) () := by
  obtain ⟨h1, h2, _, _, _, h6⟩ := C4_set_collapsing ()
    (Row.ofCells [("_uuid", .ofString "b1"), ("name", .ofString "B1"),
      ("ports", .ofString "U1")])
    (Row.ofCells [("_uuid", .ofString "b1"), ("name", .ofString "B1"),
      ("ports", .ofStrings ["U1"])])
    (Row.ofCells [("_uuid", .ofString "P2"), ("interfaces", .ofString "U1")])
    (Row.ofCells [("_uuid", .ofString "P2"), ("interfaces", .ofStrings ["U1"])])
    "U1" ["U1"] rfl rfl rfl rfl
  refine ⟨?_, ?_, h6 rfl rfl⟩
  · rw [h1]; rfl
  · rw [h2]; rfl

/-- C5: a bad identifier is fatal for the whole query. If some row of a Bridge (resp. Port)
result has `_uuid` missing or tagged other than `"string"`, `GetDbBridges` (resp.
`GetDbPorts`) never returns a record list; it returns an error whenever the rows honour the
tag contract of `GetColumnValue`, and in particular whenever all rows before the bad one
decoded successfully, however many they are. -/
theorem C5_identifier_failure_atomic {σ κ : Type} (cli : OvsClient σ κ) (sb sb1 sp sp1 : σ)
    (resB resP : Result κ)
    (hB : cli.Transact cli.Name "SELECT * FROM Bridge" sb = ((resB, none), sb1))
    (hP : cli.Transact cli.Name "SELECT * FROM Port" sp = ((resP, none), sp1))
    (hbadB : ∃ r ∈ resB.Rows, (r.GetColumnValue "_uuid" resB.Columns).BadIdentifier)
    (hbadP : ∃ r ∈ resP.Rows, (r.GetColumnValue "_uuid" resP.Columns).BadIdentifier) :
    ((∀ bs, (GetDbBridges cli sb).1 ≠ .ok bs) ∧
      ((∀ r ∈ resB.Rows, r.TagSound resB.Columns) →
        ∃ e, GetDbBridges cli sb = (.error e, sb1)) ∧
      (∀ pre r post, resB.Rows = pre ++ r :: post →
        (∀ x ∈ pre, ∃ b, GetDbBridges.body x resB.Columns = .ok b) →
        (r.GetColumnValue "_uuid" resB.Columns).BadIdentifier →
        ∃ e, GetDbBridges cli sb = (.error e, sb1))) ∧
    ((∀ ps, (GetDbPorts cli sp).1 ≠ .ok ps) ∧
      ((∀ r ∈ resP.Rows, r.TagSound resP.Columns) →
        ∃ e, GetDbPorts cli sp = (.error e, sp1)) ∧
      (∀ pre r post, resP.Rows = pre ++ r :: post →
        (∀ x ∈ pre, ∃ p, GetDbPorts.body x resP.Columns = .ok p) →
        (r.GetColumnValue "_uuid" resP.Columns).BadIdentifier →
        ∃ e, GetDbPorts cli sp = (.error e, sp1))) := by
  have hb : ∃ r ∈ resB.Rows, ∀ b, GetDbBridges.body r resB.Columns ≠ .ok b := by
    obtain ⟨r, hr, hbad⟩ := hbadB
    obtain ⟨e, he⟩ := GetDbBridges_body_bad_uuid r resB.Columns hbad
    exact ⟨r, hr, fun b => by simp [he]⟩
  have hp : ∃ r ∈ resP.Rows, ∀ b, GetDbPorts.body r resP.Columns ≠ .ok b := by
    obtain ⟨r, hr, hbad⟩ := hbadP
    obtain ⟨e, he⟩ := GetDbPorts_body_bad_uuid r resP.Columns hbad
    exact ⟨r, hr, fun b => by simp [he]⟩
  obtain ⟨b1, b2⟩ := GetDbBridges_fails_of_bad_row cli sb sb1 resB hB hb
  obtain ⟨p1, p2⟩ := GetDbPorts_fails_of_bad_row cli sp sp1 resP hP hp
  refine ⟨⟨b1, b2, ?_⟩, ⟨p1, p2, ?_⟩⟩
  · intro pre r post hrows hpre hbad
    obtain ⟨e, he⟩ := GetDbBridges_body_bad_uuid r resB.Columns hbad
    exact ⟨e, GetDbBridges_fails_at cli sb sb1 resB pre post r e hB hrows hpre he⟩
  · intro pre r post hrows hpre hbad
    obtain ⟨e, he⟩ := GetDbPorts_body_bad_uuid r resP.Columns hbad
    exact ⟨e, GetDbPorts_fails_at cli sp sp1 resP pre post r e hP hrows hpre he⟩

/-- Witness for C5: the second Bridge row has no `_uuid`, the second Port row has a
list-tagged `_uuid`; neither call returns records although the first rows are fine. -/
theorem C5_identifier_failure_atomic_witness :
    (∀ bs, (GetDbBridges (OvsClient.ofTables missingUuidRows listUuidRows) []).1 ≠ .ok bs) ∧
      (∀ ps, (GetDbPorts (OvsClient.ofTables missingUuidRows listUuidRows) []).1 ≠ .ok ps) := by
  obtain ⟨⟨h1, _, _⟩, ⟨h2, _, _⟩⟩ := C5_identifier_failure_atomic
    (OvsClient.ofTables missingUuidRows listUuidRows) [] ["SELECT * FROM Bridge"] []
    ["SELECT * FROM Port"] ⟨missingUuidRows, ()⟩ ⟨listUuidRows, ()⟩ rfl rfl
    ⟨Row.ofCells [("name", .ofString "N2")], by simp [missingUuidRows],
      Or.inl (by decide)⟩
    ⟨Row.ofCells [("_uuid", .ofStrings ["u2"]), ("name", .ofString "N2")],
      by simp [listUuidRows], Or.inr (by decide)⟩
  exact ⟨h1, h2⟩

/-- C7: a present optional column of the wrong shape is fatal. If some row has a valid
`_uuid` and either a `name` that is present with a tag other than `"string"` (such as a
multi-element list) or a `ports` / `interfaces` column present with a tag that is neither
`"[]string"` nor `"string"`, the call never returns records (a list-shaped `name` is not cut
down to its first element), and it returns an error whenever the rows honour the tag
contract of `GetColumnValue`. -/
theorem C7_wrong_shape_fatal {σ κ : Type} (cli : OvsClient σ κ) (sb sb1 sp sp1 : σ)
    (resB resP : Result κ)
    (hB : cli.Transact cli.Name "SELECT * FROM Bridge" sb = ((resB, none), sb1))
    (hP : cli.Transact cli.Name "SELECT * FROM Port" sp = ((resP, none), sp1))
    (hbadB : ∃ r ∈ resB.Rows, Row.WrongShape "ports" r resB.Columns)
    (hbadP : ∃ r ∈ resP.Rows, Row.WrongShape "interfaces" r resP.Columns) :
    ((∀ bs, (GetDbBridges cli sb).1 ≠ .ok bs) ∧
      ((∀ r ∈ resB.Rows, r.TagSound resB.Columns) →
        ∃ e, GetDbBridges cli sb = (.error e, sb1))) ∧
    ((∀ ps, (GetDbPorts cli sp).1 ≠ .ok ps) ∧
      ((∀ r ∈ resP.Rows, r.TagSound resP.Columns) →
        ∃ e, GetDbPorts cli sp = (.error e, sp1))) := by
  constructor
  · obtain ⟨r, hr, hw⟩ := hbadB
    exact GetDbBridges_fails_of_bad_row cli sb sb1 resB hB
      ⟨r, hr, GetDbBridges_body_wrong_shape r resB.Columns hw⟩
  · obtain ⟨r, hr, hw⟩ := hbadP
    exact GetDbPorts_fails_of_bad_row cli sp sp1 resP hP
      ⟨r, hr, GetDbPorts_body_wrong_shape r resP.Columns hw⟩

/-- Witness for C7: a Bridge row whose `name` is a two-element list and a Port row whose
`interfaces` is a boolean; neither call returns records. -/
theorem C7_wrong_shape_fatal_witness :
    (∀ bs, (GetDbBridges (OvsClient.ofTables listNameRows boolInterfacesRows) []).1 ≠ .ok bs) ∧
      (∀ ps, (GetDbPorts (OvsClient.ofTables listNameRows boolInterfacesRows) []).1
        ≠ .ok ps) := by
  obtain ⟨⟨h1, _⟩, ⟨h2, _⟩⟩ := C7_wrong_shape_fatal
    (OvsClient.ofTables listNameRows boolInterfacesRows) [] ["SELECT * FROM Bridge"] []
    ["SELECT * FROM Port"] ⟨listNameRows, ()⟩ ⟨boolInterfacesRows, ()⟩ rfl rfl
    ⟨Row.ofCells [("_uuid", .ofString "u2"), ("name", .ofStrings ["N2", "N3"])],
      by simp [listNameRows], ⟨"u2", rfl⟩, Or.inl ⟨by decide, by decide⟩⟩
    ⟨Row.ofCells [("_uuid", .ofString "u1"), ("interfaces", ⟨.bool true, "bool", none⟩)],
      by simp [boolInterfacesRows], ⟨"u1", rfl⟩, Or.inr ⟨by decide, by decide, by decide⟩⟩
  exact ⟨h1, h2⟩

/-- C8: an empty result is a failure. When `Transact` succeeds with zero rows,
`GetDbBridges` and `GetDbPorts` return the "did not return any rows" error and no list;
hence every list they return is non-empty. -/
theorem C8_empty_result_is_failure {σ κ : Type} (cli : OvsClient σ κ) (sb sb1 sp sp1 : σ)
    (resB resP : Result κ)
    (hB : cli.Transact cli.Name "SELECT * FROM Bridge" sb = ((resB, none), sb1))
    (hP : cli.Transact cli.Name "SELECT * FROM Port" sp = ((resP, none), sp1))
    (hrowsB : resB.Rows = []) (hrowsP : resP.Rows = []) :
    GetDbBridges cli sb
        = (.error "the 'SELECT * FROM Bridge' query did not return any rows", sb1) ∧
      GetDbPorts cli sp
        = (.error "the 'SELECT * FROM Port' query did not return any rows", sp1) ∧
      (∀ s bs, (GetDbBridges cli s).1 = .ok bs → bs ≠ []) ∧
      (∀ s ps, (GetDbPorts cli s).1 = .ok ps → ps ≠ []) := by
  refine ⟨GetDbBridges_no_rows cli sb sb1 resB hB hrowsB,
    GetDbPorts_no_rows cli sp sp1 resP hP hrowsP, ?_, ?_⟩
  · intro s bs h
    obtain ⟨res, _, hne, hc⟩ := GetDbBridges_ok_rows cli s bs h
    obtain ⟨recs, hout, hf⟩ := (collect_ok_iff _ _ _ _).mp hc
    intro hnil
    have hrecs : recs = [] := by rw [hnil] at hout; simpa using hout.symm
    have hlen := hf.length_eq
    rw [hrecs] at hlen
    exact hne (List.length_eq_zero.mp hlen)
  · intro s ps h
    obtain ⟨res, _, hne, hc⟩ := GetDbPorts_ok_rows cli s ps h
    obtain ⟨recs, hout, hf⟩ := (collect_ok_iff _ _ _ _).mp hc
    intro hnil
    have hrecs : recs = [] := by rw [hnil] at hout; simpa using hout.symm
    have hlen := hf.length_eq
    rw [hrecs] at hlen
    exact hne (List.length_eq_zero.mp hlen)

/-- Witness for C8: both tables empty. -/
theorem C8_empty_result_is_failure_witness :
    GetDbBridges (OvsClient.ofTables [] []) []
        = (.error "the 'SELECT * FROM Bridge' query did not return any rows",
            ["SELECT * FROM Bridge"]) ∧
      GetDbPorts (OvsClient.ofTables [] []) []
        = (.error "the 'SELECT * FROM Port' query did not return any rows",
            ["SELECT * FROM Port"]) := by
  obtain ⟨h1, h2, _, _⟩ := C8_empty_result_is_failure (OvsClient.ofTables [] []) []
    ["SELECT * FROM Bridge"] [] ["SELECT * FROM Port"] ⟨[], ()⟩ ⟨[], ()⟩ rfl rfl rfl rfl
  exact ⟨h1, h2⟩

/-- C6, the claim as stated fails: a single Bridge row with the well-formed `_uuid` string
`u1` and a list-shaped `name` makes `GetDbBridges` return an error, not a record. -/
theorem C6_counterexample :
    nameListOnlyRows ≠ [] ∧
      (∀ r ∈ nameListOnlyRows, r.GetColumnValue "_uuid" () = Lookup.ofString "u1") ∧
      GetDbBridges (OvsClient.ofTables nameListOnlyRows nameListOnlyRows) []
        = (.error "'name' of bridge u1 is not string", ["SELECT * FROM Bridge"]) := by
  refine ⟨by simp [nameListOnlyRows], ?_, rfl⟩
  intro r hr
  simp only [nameListOnlyRows, List.mem_singleton] at hr
  subst hr
  rfl

/-- C6, amended: for every non-empty result in which every row has a well-formed string
`_uuid`, a `name` that is absent or a well-formed string, and a `ports` (resp. `interfaces`)
column that is absent or a well-formed list or bare string, `GetDbBridges` (resp.
`GetDbPorts`) succeeds with one record per row, in row order, whose `UUID` is exactly the
`_uuid` string of its row. -/
theorem C6_identifier_decoded {σ κ : Type} (cli : OvsClient σ κ) (sb sb1 sp sp1 : σ)
    (resB resP : Result κ)
    (hB : cli.Transact cli.Name "SELECT * FROM Bridge" sb = ((resB, none), sb1))
    (hP : cli.Transact cli.Name "SELECT * FROM Port" sp = ((resP, none), sp1))
    (hneB : resB.Rows ≠ []) (hneP : resP.Rows ≠ [])
    (huB : ∀ r ∈ resB.Rows, ∃ u, r.GetColumnValue "_uuid" resB.Columns = Lookup.ofString u)
    (huP : ∀ r ∈ resP.Rows, ∃ u, r.GetColumnValue "_uuid" resP.Columns = Lookup.ofString u)
    (hnB : ∀ r ∈ resB.Rows, (r.GetColumnValue "name" resB.Columns).AcceptedScalar)
    (hnP : ∀ r ∈ resP.Rows, (r.GetColumnValue "name" resP.Columns).AcceptedScalar)
    (hlB : ∀ r ∈ resB.Rows, (r.GetColumnValue "ports" resB.Columns).AcceptedList)
    (hlP : ∀ r ∈ resP.Rows, (r.GetColumnValue "interfaces" resP.Columns).AcceptedList) :
    (∃ bs, GetDbBridges cli sb = (.ok bs, sb1) ∧
      List.Forall₂ (fun r b => r.GetColumnValue "_uuid" resB.Columns = Lookup.ofString b.UUID)
        resB.Rows bs) ∧
    (∃ ps, GetDbPorts cli sp = (.ok ps, sp1) ∧
      List.Forall₂ (fun r p => r.GetColumnValue "_uuid" resP.Columns = Lookup.ofString p.UUID)
        resP.Rows ps) := by
  constructor
  · obtain ⟨recs, hc, hf⟩ := collect_forall₂ (fun r => GetDbBridges.body r resB.Columns)
      (fun r b => r.GetColumnValue "_uuid" resB.Columns = Lookup.ofString b.UUID) resB.Rows []
      (fun r hr => by
        obtain ⟨u, hu⟩ := huB r hr
        obtain ⟨n, l, hb, _, _⟩ := GetDbBridges_body_ok r resB.Columns u hu (hnB r hr) (hlB r hr)
        exact ⟨_, hb, hu⟩)
    exact ⟨recs, by rw [GetDbBridges_of_rows cli sb sb1 resB hB hneB, hc]; rfl, hf⟩
  · obtain ⟨recs, hc, hf⟩ := collect_forall₂ (fun r => GetDbPorts.body r resP.Columns)
      (fun r p => r.GetColumnValue "_uuid" resP.Columns = Lookup.ofString p.UUID) resP.Rows []
      (fun r hr => by
        obtain ⟨u, hu⟩ := huP r hr
        obtain ⟨n, l, hb, _, _⟩ := GetDbPorts_body_ok r resP.Columns u hu (hnP r hr) (hlP r hr)
        exact ⟨_, hb, hu⟩)
    exact ⟨recs, by rw [GetDbPorts_of_rows cli sp sp1 resP hP hneP, hc]; rfl, hf⟩

/-- Witness for the amended C6 on the two-bridge fixture. -/
theorem C6_identifier_decoded_witness :
    (∃ bs, GetDbBridges fixtureClient [] = (.ok bs, ["SELECT * FROM Bridge"]) ∧
      List.Forall₂ (fun r b => r.GetColumnValue "_uuid" () = Lookup.ofString b.UUID)
        fixtureBridgeRows bs) ∧
    (∃ ps, GetDbPorts fixtureClient [] = (.ok ps, ["SELECT * FROM Port"]) ∧
      List.Forall₂ (fun r p => r.GetColumnValue "_uuid" () = Lookup.ofString p.UUID)
        fixturePortRows ps) := by
  refine C6_identifier_decoded fixtureClient [] ["SELECT * FROM Bridge"] []
    ["SELECT * FROM Port"] ⟨fixtureBridgeRows, ()⟩ ⟨fixturePortRows, ()⟩ rfl rfl
    (by simp [fixtureBridgeRows]) (by simp [fixturePortRows]) ?_ ?_ ?_ ?_ ?_ ?_
  · intro r hr
    simp only [fixtureBridgeRows, List.mem_cons, List.mem_singleton, List.not_mem_nil,
      or_false] at hr
    rcases hr with rfl | rfl
    · exact ⟨"b1", rfl⟩
    · exact ⟨"b2", rfl⟩
  · intro r hr
    simp only [fixturePortRows, List.mem_cons, List.mem_singleton, List.not_mem_nil,
      or_false] at hr
    rcases hr with rfl | rfl
    · exact ⟨"P1", rfl⟩
    · exact ⟨"P2", rfl⟩
  · intro r hr
    simp only [fixtureBridgeRows, List.mem_cons, List.mem_singleton, List.not_mem_nil,
      or_false] at hr
    rcases hr with rfl | rfl
    · exact Or.inr ⟨"B1", rfl⟩
    · exact Or.inr ⟨"B2", rfl⟩
  · intro r hr
    simp only [fixturePortRows, List.mem_cons, List.mem_singleton, List.not_mem_nil,
      or_false] at hr
    rcases hr with rfl | rfl
    · exact Or.inr ⟨"p1", rfl⟩
    · exact Or.inr ⟨"p2", rfl⟩
  · intro r hr
    simp only [fixtureBridgeRows, List.mem_cons, List.mem_singleton, List.not_mem_nil,
      or_false] at hr
    rcases hr with rfl | rfl
    · exact Or.inr (Or.inr ⟨"P1", rfl⟩)
    · exact Or.inr (Or.inl ⟨["P2"], rfl⟩)
  · intro r hr
    simp only [fixturePortRows, List.mem_cons, List.mem_singleton, List.not_mem_nil,
      or_false] at hr
    rcases hr with rfl | rfl
    · exact Or.inr (Or.inl ⟨["I1", "I2"], rfl⟩)
    · exact Or.inr (Or.inr ⟨"I3", rfl⟩)

/-- C9, the claim as stated fails: a single Bridge row with a string `_uuid`, an absent
`name` and an integer-tagged `ports` column makes `GetDbBridges` fail. -/
theorem C9_counterexample :
    intPortsRows ≠ [] ∧
      (∀ r ∈ intPortsRows, r.GetColumnValue "_uuid" () = Lookup.ofString "u1" ∧
        r.GetColumnValue "name" () = Lookup.absent) ∧
      GetDbBridges (OvsClient.ofTables intPortsRows intPortsRows) []
        = (.error "'ports' of bridge u1 is not array of strings and not string",
            ["SELECT * FROM Bridge"]) := by
  refine ⟨by simp [intPortsRows], ?_, rfl⟩
  intro r hr
  simp only [intPortsRows, List.mem_singleton] at hr
  subst hr
  exact ⟨rfl, rfl⟩

/-- C9, amended: for every non-empty result whose rows all have a string `_uuid` and whose
optional columns are each either absent or of an accepted shape, the call succeeds, and in
every record a column whose lookup reported it absent leaves its field at the zero value
(`Name` empty, `Ports` / `Interfaces` empty) while the other fields are decoded from their
own columns as usual. -/
theorem C9_absent_column_tolerated {σ κ : Type} (cli : OvsClient σ κ) (sb sb1 sp sp1 : σ)
    (resB resP : Result κ)
    (hB : cli.Transact cli.Name "SELECT * FROM Bridge" sb = ((resB, none), sb1))
    (hP : cli.Transact cli.Name "SELECT * FROM Port" sp = ((resP, none), sp1))
    (hneB : resB.Rows ≠ []) (hneP : resP.Rows ≠ [])
    (huB : ∀ r ∈ resB.Rows, ∃ u, r.GetColumnValue "_uuid" resB.Columns = Lookup.ofString u)
    (huP : ∀ r ∈ resP.Rows, ∃ u, r.GetColumnValue "_uuid" resP.Columns = Lookup.ofString u)
    (hnB : ∀ r ∈ resB.Rows, (r.GetColumnValue "name" resB.Columns).AcceptedScalar)
    (hnP : ∀ r ∈ resP.Rows, (r.GetColumnValue "name" resP.Columns).AcceptedScalar)
    (hlB : ∀ r ∈ resB.Rows, (r.GetColumnValue "ports" resB.Columns).AcceptedList)
    (hlP : ∀ r ∈ resP.Rows, (r.GetColumnValue "interfaces" resP.Columns).AcceptedList) :
    (∃ bs, GetDbBridges cli sb = (.ok bs, sb1) ∧
      List.Forall₂ (Row.DecodesBridge resB.Columns) resB.Rows bs) ∧
    (∃ ps, GetDbPorts cli sp = (.ok ps, sp1) ∧
      List.Forall₂ (Row.DecodesPort resP.Columns) resP.Rows ps) := by
  constructor
  · obtain ⟨recs, hc, hf⟩ := collect_forall₂ (fun r => GetDbBridges.body r resB.Columns)
      (Row.DecodesBridge resB.Columns) resB.Rows []
      (fun r hr => by
        obtain ⟨u, hu⟩ := huB r hr
        obtain ⟨n, l, hb, hn, hl⟩ :=
          GetDbBridges_body_ok r resB.Columns u hu (hnB r hr) (hlB r hr)
        exact ⟨_, hb, rfl, hu, hn, hl⟩)
    exact ⟨recs, by rw [GetDbBridges_of_rows cli sb sb1 resB hB hneB, hc]; rfl, hf⟩
  · obtain ⟨recs, hc, hf⟩ := collect_forall₂ (fun r => GetDbPorts.body r resP.Columns)
      (Row.DecodesPort resP.Columns) resP.Rows []
      (fun r hr => by
        obtain ⟨u, hu⟩ := huP r hr
        obtain ⟨n, l, hb, hn, hl⟩ :=
          GetDbPorts_body_ok r resP.Columns u hu (hnP r hr) (hlP r hr)
        exact ⟨_, hb, rfl, hu, hn, hl⟩)
    exact ⟨recs, by rw [GetDbPorts_of_rows cli sp sp1 resP hP hneP, hc]; rfl, hf⟩

/-- Witness for the amended C9: the first row has only `_uuid`, the second has every column. -/
theorem C9_absent_column_tolerated_witness :
    (∃ bs, GetDbBridges (OvsClient.ofTables sparseRows sparseRows) []
        = (.ok bs, ["SELECT * FROM Bridge"]) ∧
      List.Forall₂ (Row.DecodesBridge ()) sparseRows bs) ∧
    (∃ ps, GetDbPorts (OvsClient.ofTables sparseRows sparseRows) []
        = (.ok ps, ["SELECT * FROM Port"]) ∧
      List.Forall₂ (Row.DecodesPort ()) sparseRows ps) := by
  refine C9_absent_column_tolerated (OvsClient.ofTables sparseRows sparseRows) []
    ["SELECT * FROM Bridge"] [] ["SELECT * FROM Port"] ⟨sparseRows, ()⟩ ⟨sparseRows, ()⟩
    rfl rfl (by simp [sparseRows]) (by simp [sparseRows]) ?_ ?_ ?_ ?_ ?_ ?_
  all_goals
    intro r hr
    simp only [sparseRows, List.mem_cons, List.mem_singleton, List.not_mem_nil,
      or_false] at hr
    rcases hr with rfl | rfl
  · exact ⟨"u1", rfl⟩
  · exact ⟨"u2", rfl⟩
  · exact ⟨"u1", rfl⟩
  · exact ⟨"u2", rfl⟩
  · exact Or.inl (by decide)
  · exact Or.inr ⟨"N2", rfl⟩
  · exact Or.inl (by decide)
  · exact Or.inr ⟨"N2", rfl⟩
  · exact Or.inl (by decide)
  · exact Or.inr (Or.inl ⟨["P1", "P2"], rfl⟩)
  · exact Or.inl (by decide)
  · exact Or.inr (Or.inr ⟨"I1", rfl⟩)

/-- C10, the claim as stated fails: a Bridge row with a valid `_uuid` whose `name` lookup
fails with an unsupported-shape error (not column-not-found) does not make `GetDbBridges`
fail; the call succeeds and `Name` is silently left empty. -/
theorem C10_counterexample :
    (∀ r ∈ unsupportedNameRows, r.GetColumnValue "_uuid" () = Lookup.ofString "u1" ∧
        (r.GetColumnValue "name" ()).error = some "data type is unsupported" ∧
        (r.GetColumnValue "name" ()).error ≠ Lookup.absent.error) ∧
      GetDbBridges (OvsClient.ofTables unsupportedNameRows unsupportedNameRows) []
        = (.ok [{ UUID := "u1", Name := "" }], ["SELECT * FROM Bridge"]) := by
  refine ⟨?_, rfl⟩
  intro r hr
  simp only [unsupportedNameRows, List.mem_singleton] at hr
  subst hr
  exact ⟨rfl, rfl, by decide⟩

/-- C10, amended: every lookup error on an optional column is swallowed, whatever its kind.
For a row with a valid `_uuid`, a `name` lookup that returns any error leaves `Name` untouched
and decoding continues with the list column; a list-column lookup that returns any error
leaves the list untouched; if both fail the row still decodes, to the record holding only the
identifier. Only a column whose lookup returns no error and whose tag is not accepted makes
the row, and with it the call, fail. -/
theorem C10_lookup_errors_swallowed {κ : Type} (columns : κ) (rb rp : Row κ) (ub up : String)
    (hub : rb.GetColumnValue "_uuid" columns = Lookup.ofString ub)
    (hup : rp.GetColumnValue "_uuid" columns = Lookup.ofString up) :
    (((rb.GetColumnValue "name" columns).error ≠ none →
        GetDbBridges.body rb columns = GetDbBridges.ports rb columns { UUID := ub }) ∧
      ((rb.GetColumnValue "ports" columns).error ≠ none →
        GetDbBridges.body rb columns = GetDbBridges.scalars rb columns) ∧
      ((rb.GetColumnValue "name" columns).error ≠ none →
        (rb.GetColumnValue "ports" columns).error ≠ none →
        GetDbBridges.body rb columns = .ok { UUID := ub }) ∧
      ((rb.GetColumnValue "name" columns).error = none →
        (rb.GetColumnValue "name" columns).dataType ≠ "string" →
        GetDbBridges.body rb columns = .error ("'name' of bridge " ++ ub ++ " is not string")) ∧
      (Row.WrongShape "ports" rb columns → ∀ b, GetDbBridges.body rb columns ≠ .ok b)) ∧
    (((rp.GetColumnValue "name" columns).error ≠ none →
        GetDbPorts.body rp columns = GetDbPorts.interfaces rp columns { UUID := up }) ∧
      ((rp.GetColumnValue "interfaces" columns).error ≠ none →
        GetDbPorts.body rp columns = GetDbPorts.scalars rp columns) ∧
      ((rp.GetColumnValue "name" columns).error ≠ none →
        (rp.GetColumnValue "interfaces" columns).error ≠ none →
        GetDbPorts.body rp columns = .ok { UUID := up }) ∧
      ((rp.GetColumnValue "name" columns).error = none →
        (rp.GetColumnValue "name" columns).dataType ≠ "string" →
        GetDbPorts.body rp columns = .error ("'name' of port " ++ up ++ " is not string")) ∧
      (Row.WrongShape "interfaces" rp columns → ∀ p, GetDbPorts.body rp columns ≠ .ok p)) := by
  constructor
  · have hn : (rb.GetColumnValue "name" columns).error ≠ none →
        GetDbBridges.scalars rb columns = .ok { UUID := ub } := fun h => by
      simp [GetDbBridges.scalars, GetDbBridges_uuid_ofString rb columns ub hub, Outcome.bind,
        GetDbBridges_name_error rb columns _ h]
    have hl : (rb.GetColumnValue "ports" columns).error ≠ none →
        GetDbBridges.body rb columns = GetDbBridges.scalars rb columns := fun h => by
      unfold GetDbBridges.body
      cases GetDbBridges.scalars rb columns with
      | ok x => simp [Outcome.bind, GetDbBridges_ports_error rb columns x h]
      | error e => rfl
      | panic => rfl
    refine ⟨?_, hl, ?_, ?_, fun hw b => GetDbBridges_body_wrong_shape rb columns hw b⟩
    · intro h; simp [GetDbBridges.body, hn h, Outcome.bind]
    · intro h1 h2; rw [hl h2, hn h1]
    · intro he ht
      simp [GetDbBridges.body, GetDbBridges.scalars,
        GetDbBridges_uuid_ofString rb columns ub hub, Outcome.bind,
        GetDbBridges_name_wrong_tag rb columns _ he ht]
  · have hn : (rp.GetColumnValue "name" columns).error ≠ none →
        GetDbPorts.scalars rp columns = .ok { UUID := up } := fun h => by
      simp [GetDbPorts.scalars, GetDbPorts_uuid_ofString rp columns up hup, Outcome.bind,
        GetDbPorts_name_error rp columns _ h]
    have hl : (rp.GetColumnValue "interfaces" columns).error ≠ none →
        GetDbPorts.body rp columns = GetDbPorts.scalars rp columns := fun h => by
      unfold GetDbPorts.body
      cases GetDbPorts.scalars rp columns with
      | ok x => simp [Outcome.bind, GetDbPorts_interfaces_error rp columns x h]
      | error e => rfl
      | panic => rfl
    refine ⟨?_, hl, ?_, ?_, fun hw p => GetDbPorts_body_wrong_shape rp columns hw p⟩
    · intro h; simp [GetDbPorts.body, hn h, Outcome.bind]
    · intro h1 h2; rw [hl h2, hn h1]
    · intro he ht
      simp [GetDbPorts.body, GetDbPorts.scalars,
        GetDbPorts_uuid_ofString rp columns up hup, Outcome.bind,
        GetDbPorts_name_wrong_tag rp columns _ he ht]

/-- Witness for the amended C10: a row whose `name` and list-column lookups both fail with
an unsupported-shape error decodes to the record holding only its identifier. -/
theorem C10_lookup_errors_swallowed_witness :
    GetDbBridges.body (Row.ofCells [("_uuid", .ofString "u1"),
        ("name", ⟨.null, "map[string]int", some "data type is unsupported"⟩),
        ("ports", ⟨.null, "int", some "data type is unsupported"⟩)]) ()
      = .ok { UUID := "u1" } ∧
    GetDbPorts.body (Row.ofCells [("_uuid", .ofString "u2"),
        ("name", ⟨.null, "map[string]int", some "data type is unsupported"⟩),
        ("interfaces", ⟨.null, "int", some "data type is unsupported"⟩)]) ()
      = .ok { UUID := "u2" } := by
  obtain ⟨⟨_, _, hb, _, _⟩, ⟨_, _, hp, _, _⟩⟩ := C10_lookup_errors_swallowed ()
    (Row.ofCells [("_uuid", .ofString "u1"),
      ("name", ⟨.null, "map[string]int", some "data type is unsupported"⟩),
      ("ports", ⟨.null, "int", some "data type is unsupported"⟩)])
    (Row.ofCells [("_uuid", .ofString "u2"),
      ("name", ⟨.null, "map[string]int", some "data type is unsupported"⟩),
      ("interfaces", ⟨.null, "int", some "data type is unsupported"⟩)])
    "u1" "u2" rfl rfl
  exact ⟨hb (by decide) (by decide), hp (by decide) (by decide)⟩

/-- C11: row order and count are preserved. Whenever `GetDbBridges` (resp. `GetDbPorts`)
succeeds on a result with `n` rows, the returned list has exactly `n` records and, for every
`k < n`, the `k`-th record is the decoding of the `k`-th row and its `UUID` is that row's
`_uuid` string. -/
theorem C11_row_order_preserved {σ κ : Type} (cli : OvsClient σ κ) (sb sb1 sp sp1 : σ)
    (resB resP : Result κ) (bs : List OvsBridge) (ps : List OvsPort)
    (hB : cli.Transact cli.Name "SELECT * FROM Bridge" sb = ((resB, none), sb1))
    (hP : cli.Transact cli.Name "SELECT * FROM Port" sp = ((resP, none), sp1))
    (hb : GetDbBridges cli sb = (.ok bs, sb1)) (hp : GetDbPorts cli sp = (.ok ps, sp1)) :
    (bs.length = resB.Rows.length ∧
      ∀ k (h1 : k < resB.Rows.length) (h2 : k < bs.length),
        GetDbBridges.body (resB.Rows.get ⟨k, h1⟩) resB.Columns = .ok (bs.get ⟨k, h2⟩) ∧
        (resB.Rows.get ⟨k, h1⟩).GetColumnValue "_uuid" resB.Columns
          = Lookup.ofString (bs.get ⟨k, h2⟩).UUID) ∧
    (ps.length = resP.Rows.length ∧
      ∀ k (h1 : k < resP.Rows.length) (h2 : k < ps.length),
        GetDbPorts.body (resP.Rows.get ⟨k, h1⟩) resP.Columns = .ok (ps.get ⟨k, h2⟩) ∧
        (resP.Rows.get ⟨k, h1⟩).GetColumnValue "_uuid" resP.Columns
          = Lookup.ofString (ps.get ⟨k, h2⟩).UUID) := by
  constructor
  · have hne : resB.Rows ≠ [] := by
      intro h0
      rw [GetDbBridges_no_rows cli sb sb1 resB hB h0] at hb
      cases hb
    rw [GetDbBridges_of_rows cli sb sb1 resB hB hne] at hb
    have hc : Outcome.collect (fun r => GetDbBridges.body r resB.Columns) resB.Rows []
        = .ok bs := congrArg Prod.fst hb
    obtain ⟨recs, hout, hf⟩ := (collect_ok_iff _ _ _ _).mp hc
    simp only [List.nil_append] at hout
    subst hout
    refine ⟨hf.length_eq.symm, fun k h1 h2 => ?_⟩
    have hk := hf.get h1 h2
    exact ⟨hk, (GetDbBridges_body_shape _ _ _ hk).2⟩
  · have hne : resP.Rows ≠ [] := by
      intro h0
      rw [GetDbPorts_no_rows cli sp sp1 resP hP h0] at hp
      cases hp
    rw [GetDbPorts_of_rows cli sp sp1 resP hP hne] at hp
    have hc : Outcome.collect (fun r => GetDbPorts.body r resP.Columns) resP.Rows []
        = .ok ps := congrArg Prod.fst hp
    obtain ⟨recs, hout, hf⟩ := (collect_ok_iff _ _ _ _).mp hc
    simp only [List.nil_append] at hout
    subst hout
    refine ⟨hf.length_eq.symm, fun k h1 h2 => ?_⟩
    have hk := hf.get h1 h2
    exact ⟨hk, (GetDbPorts_body_shape _ _ _ hk).2⟩

/-- Witness for C11 on the two-bridge fixture: two rows in, two records out, in row order. -/
theorem C11_row_order_preserved_witness :
    ([{ UUID := "b1", Name := "B1", Ports := ["P1"] },
      { UUID := "b2", Name := "B2", Ports := ["P2"] }] : List OvsBridge).length
        = fixtureBridgeRows.length ∧
      ([{ UUID := "P1", Name := "p1", Interfaces := ["I1", "I2"] },
        { UUID := "P2", Name := "p2", Interfaces := ["I3"] }] : List OvsPort).length
        = fixturePortRows.length := by
  obtain ⟨⟨h1, _⟩, ⟨h2, _⟩⟩ := C11_row_order_preserved fixtureClient []
    ["SELECT * FROM Bridge"] [] ["SELECT * FROM Port"]
    ⟨fixtureBridgeRows, ()⟩ ⟨fixturePortRows, ()⟩
    [{ UUID := "b1", Name := "B1", Ports := ["P1"] },
     { UUID := "b2", Name := "B2", Ports := ["P2"] }]
    [{ UUID := "P1", Name := "p1", Interfaces := ["I1", "I2"] },
     { UUID := "P2", Name := "p2", Interfaces := ["I3"] }] rfl rfl rfl rfl
  exact ⟨h1, h2⟩

theorem build_foldl_last (pre post : List OvsPort) (p : OvsPort) (m : GoMap (List String))
    (h : ∀ q ∈ post, q.UUID ≠ p.UUID) :
    (pre ++ p :: post).foldl (fun acc port => acc.set port.UUID port.Interfaces) m p.UUID
      = some p.Interfaces := by
  rw [List.foldl_append, List.foldl_cons, build_foldl_absent post _ p.UUID h]
  simp [GoMap.set]

/-- C12: `GetAllPortsToInterfaces` builds the port → interfaces map from the materialized
ports. When `GetDbPorts` succeeds with `ps`, the keys of the returned map are exactly the
UUIDs occurring in `ps`, and each key maps to the `Interfaces` list, unchanged, of the last
port in `ps` carrying that UUID; when `GetDbPorts` fails, so does the call, with no map. -/
theorem C12_ports_to_interfaces {σ κ : Type} (cli : OvsClient σ κ) (s s1 : σ)
    (ps : List OvsPort) (hp : GetDbPorts cli s = (.ok ps, s1)) :
    (∃ m, GetAllPortsToInterfaces cli s = (.ok m, s1) ∧
      (∀ u, (m u).isSome ↔ ∃ p ∈ ps, p.UUID = u) ∧
      (∀ pre p post, ps = pre ++ p :: post → (∀ q ∈ post, q.UUID ≠ p.UUID) →
        m p.UUID = some p.Interfaces)) ∧
    (∀ t e, (GetDbPorts cli t).1 = .error e →
      GetAllPortsToInterfaces cli t
        = (.error ("couldn't get list of ports: " ++ e), (GetDbPorts cli t).2)) ∧
    (∀ t, (∀ qs, (GetDbPorts cli t).1 ≠ .ok qs) →
      ∀ m, (GetAllPortsToInterfaces cli t).1 ≠ .ok m) := by
  refine ⟨⟨GetAllPortsToInterfaces.build ps, by simp [GetAllPortsToInterfaces, hp], ?_, ?_⟩,
    ?_, ?_⟩
  · intro u
    constructor
    · intro h
      by_contra hno
      have habs := build_absent ps u (fun q hq e => hno ⟨q, hq, e⟩)
      rw [habs] at h
      simp at h
    · intro h
      obtain ⟨pre, p, post, hl, hu, hpost⟩ := exists_last (fun q => q.UUID = u) ps h
      subst hu
      rw [hl]
      simp only [GetAllPortsToInterfaces.build]
      rw [build_foldl_last pre post p GoMap.empty hpost]
      rfl
  · intro pre p post hl hpost
    rw [hl]
    exact build_foldl_last pre post p GoMap.empty hpost
  · intro t e h
    rcases hx : GetDbPorts cli t with ⟨o, t1⟩
    rw [hx] at h
    simp only at h
    subst h
    simp [GetAllPortsToInterfaces, hx]
  · intro t h m
    rcases hx : GetDbPorts cli t with ⟨o, t1⟩
    rw [hx] at h
    cases o with
    | ok qs => exact absurd rfl (h qs)
    | error e => simp [GetAllPortsToInterfaces, hx]
    | panic => simp [GetAllPortsToInterfaces, hx]

/-- Witness for C12 on the two-bridge fixture: port `P1` maps to `[I1, I2]`. -/
theorem C12_ports_to_interfaces_witness :
    ∃ m, GetAllPortsToInterfaces fixtureClient [] = (.ok m, ["SELECT * FROM Port"]) ∧
      m "P1" = some ["I1", "I2"] := by
  obtain ⟨⟨m, hm, _, hlast⟩, _, _⟩ := C12_ports_to_interfaces fixtureClient []
    ["SELECT * FROM Port"]
    [{ UUID := "P1", Name := "p1", Interfaces := ["I1", "I2"] },
     { UUID := "P2", Name := "p2", Interfaces := ["I3"] }] rfl
  exact ⟨m, hm, hlast [] { UUID := "P1", Name := "p1", Interfaces := ["I1", "I2"] }
    [{ UUID := "P2", Name := "p2", Interfaces := ["I3"] }] rfl
    (by intro q hq; simp only [List.mem_singleton] at hq; subst hq; decide)⟩

/-- C13: sub-query failures short-circuit `GetAllInterfacesToBridges`. It returns an error
exactly when `GetDbBridges` returns one, or `GetDbBridges` succeeds and the following
`GetDbPorts` returns one; it returns a map exactly when both succeed. A Bridge error `e`
comes back as "couldn't get list of bridges: " followed by `e`; a Port error `e` comes back
under the ports prefix "couldn't get list of ports: " (added once by
`GetAllPortsToInterfaces` and once more by the caller) and ends with `e`. -/
theorem C13_subquery_failures {σ κ : Type} (cli : OvsClient σ κ) (s : σ) :
    ((∃ e, (GetAllInterfacesToBridges cli s).1 = .error e) ↔
      (∃ e, (GetDbBridges cli s).1 = .error e) ∨
        ((∃ bs, (GetDbBridges cli s).1 = .ok bs) ∧
          ∃ e, (GetDbPorts cli (GetDbBridges cli s).2).1 = .error e)) ∧
    ((∃ m, (GetAllInterfacesToBridges cli s).1 = .ok m) ↔
      (∃ bs, (GetDbBridges cli s).1 = .ok bs) ∧
        ∃ ps, (GetDbPorts cli (GetDbBridges cli s).2).1 = .ok ps) ∧
    (∀ e, (GetDbBridges cli s).1 = .error e →
      GetAllInterfacesToBridges cli s
        = (.error ("couldn't get list of bridges: " ++ e), (GetDbBridges cli s).2)) ∧
    (∀ bs e, (GetDbBridges cli s).1 = .ok bs →
      (GetDbPorts cli (GetDbBridges cli s).2).1 = .error e →
      (GetAllInterfacesToBridges cli s).1
        = .error ("couldn't get list of ports: " ++ ("couldn't get list of ports: " ++ e))) := by
  rcases hx : GetDbBridges cli s with ⟨ob, s1⟩
  cases ob with
  | error e => simp [GetAllInterfacesToBridges, hx]
  | panic => simp [GetAllInterfacesToBridges, hx]
  | ok bs =>
    rcases hy : GetDbPorts cli s1 with ⟨op, s2⟩
    cases op with
    | error e => simp [GetAllInterfacesToBridges, GetAllPortsToInterfaces, hx, hy]
    | panic => simp [GetAllInterfacesToBridges, GetAllPortsToInterfaces, hx, hy]
    | ok ps => simp [GetAllInterfacesToBridges, GetAllPortsToInterfaces, hx, hy]

/-- Witness for C13: the Bridge table is fine and the Port table is empty, so the Port error
comes back under the ports prefix. -/
theorem C13_subquery_failures_witness :
    (GetAllInterfacesToBridges (OvsClient.ofTables fixtureBridgeRows []) []).1
      = .error ("couldn't get list of ports: couldn't get list of ports: " ++
          "the 'SELECT * FROM Port' query did not return any rows") := by
  obtain ⟨_, _, _, h⟩ := C13_subquery_failures (OvsClient.ofTables fixtureBridgeRows []) []
  exact h [{ UUID := "b1", Name := "B1", Ports := ["P1"] },
    { UUID := "b2", Name := "B2", Ports := ["P2"] }]
    "the 'SELECT * FROM Port' query did not return any rows" rfl rfl

/-- C14: a failing query is propagated with its cause and query text. For every error `e`
returned by `Transact`, `GetDbBridges` returns no list and the error
"the 'SELECT * FROM Bridge' query failed: " followed by `e`, and `GetDbPorts` the same with
the Port query text; the result value handed back next to the error is never looked at. -/
theorem C14_query_failure_propagated {σ κ : Type} (cli : OvsClient σ κ) (sb sb1 sp sp1 : σ)
    (resB resP : Result κ) (eB eP : String)
    (hB : cli.Transact cli.Name "SELECT * FROM Bridge" sb = ((resB, some eB), sb1))
    (hP : cli.Transact cli.Name "SELECT * FROM Port" sp = ((resP, some eP), sp1)) :
    GetDbBridges cli sb
        = (.error ("the 'SELECT * FROM Bridge' query failed: " ++ eB), sb1) ∧
      GetDbPorts cli sp
        = (.error ("the 'SELECT * FROM Port' query failed: " ++ eP), sp1) := by
  constructor
  · simp only [GetDbBridges, hB]
    rfl
  · simp only [GetDbPorts, hP]
    rfl

/-- Witness for C14: a collaborator that always fails with "connection refused". -/
theorem C14_query_failure_propagated_witness :
    GetDbBridges (OvsClient.unreachable "connection refused") []
        = (.error "the 'SELECT * FROM Bridge' query failed: connection refused",
            ["SELECT * FROM Bridge"]) ∧
      GetDbPorts (OvsClient.unreachable "connection refused") []
        = (.error "the 'SELECT * FROM Port' query failed: connection refused",
            ["SELECT * FROM Port"]) :=
  C14_query_failure_propagated (OvsClient.unreachable "connection refused") []
    ["SELECT * FROM Bridge"] [] ["SELECT * FROM Port"] ⟨missingUuidRows, ()⟩
    ⟨missingUuidRows, ()⟩ "connection refused" "connection refused" rfl rfl

theorem GetDbBridges_traced {σ κ : Type} (cli : OvsClient σ κ) (s : σ)
    (log : List (String × String)) :
    GetDbBridges cli.traced (s, log)
      = ((GetDbBridges cli s).1,
          ((GetDbBridges cli s).2, log ++ [(cli.Name, "SELECT * FROM Bridge")])) := by
  rcases h : cli.Transact cli.Name "SELECT * FROM Bridge" s with ⟨⟨res, err⟩, s1⟩
  cases err with
  | some e => simp [GetDbBridges, OvsClient.traced, h]
  | none =>
    simp only [GetDbBridges, OvsClient.traced, h]
    split <;> rfl

theorem GetDbPorts_traced {σ κ : Type} (cli : OvsClient σ κ) (s : σ)
    (log : List (String × String)) :
    GetDbPorts cli.traced (s, log)
      = ((GetDbPorts cli s).1,
          ((GetDbPorts cli s).2, log ++ [(cli.Name, "SELECT * FROM Port")])) := by
  rcases h : cli.Transact cli.Name "SELECT * FROM Port" s with ⟨⟨res, err⟩, s1⟩
  cases err with
  | some e => simp [GetDbPorts, OvsClient.traced, h]
  | none =>
    simp only [GetDbPorts, OvsClient.traced, h]
    split <;> rfl

/-- C15: the queries issued, read off the trace of `Transact` calls. `GetDbBridges` issues
exactly one call, with the configured database name and the text "SELECT * FROM Bridge";
`GetDbPorts` exactly one with "SELECT * FROM Port"; `GetAllInterfacesToBridges` issues the
Bridge query and then, only if the Bridge materialization succeeded, the Port query, each
once. Tracing changes neither the outcome nor the collaborator's state. -/
theorem C15_queries_issued {σ κ : Type} (cli : OvsClient σ κ) (s : σ)
    (log : List (String × String)) :
    (GetDbBridges cli.traced (s, log)).2.2 = log ++ [(cli.Name, "SELECT * FROM Bridge")] ∧
    (GetDbPorts cli.traced (s, log)).2.2 = log ++ [(cli.Name, "SELECT * FROM Port")] ∧
    (GetAllInterfacesToBridges cli.traced (s, log)).2.2
      = log ++ (cli.Name, "SELECT * FROM Bridge") ::
          (match (GetDbBridges cli s).1 with
            | .ok _ => [(cli.Name, "SELECT * FROM Port")]
            | _ => []) ∧
    (GetDbBridges cli.traced (s, log)).1 = (GetDbBridges cli s).1 ∧
    (GetDbPorts cli.traced (s, log)).1 = (GetDbPorts cli s).1 ∧
    (GetAllInterfacesToBridges cli.traced (s, log)).1 = (GetAllInterfacesToBridges cli s).1 ∧
    (GetAllInterfacesToBridges cli.traced (s, log)).2.1
      = (GetAllInterfacesToBridges cli s).2 := by
  refine ⟨by rw [GetDbBridges_traced], by rw [GetDbPorts_traced], ?_,
    by rw [GetDbBridges_traced], by rw [GetDbPorts_traced], ?_⟩
  · simp only [GetAllInterfacesToBridges, GetAllPortsToInterfaces, GetDbBridges_traced]
    rcases hx : GetDbBridges cli s with ⟨ob, s1⟩
    cases ob with
    | error e => simp
    | panic => simp
    | ok bs =>
      simp only [GetDbPorts_traced]
      rcases hy : GetDbPorts cli s1 with ⟨op, s2⟩
      cases op <;> simp
  · simp only [GetAllInterfacesToBridges, GetAllPortsToInterfaces, GetDbBridges_traced]
    rcases hx : GetDbBridges cli s with ⟨ob, s1⟩
    cases ob with
    | error e => simp
    | panic => simp
    | ok bs =>
      simp only [GetDbPorts_traced]
      rcases hy : GetDbPorts cli s1 with ⟨op, s2⟩
      cases op <;> simp

theorem forall₂_map_eq {α β γ : Type} (f : α → γ) (g : β → γ) (l1 : List α) (l2 : List β)
    (h : List.Forall₂ (fun a b => f a = g b) l1 l2) : l1.map f = l2.map g := by
  induction h with
  | nil => rfl
  | cons hab _ ih => simp [hab, ih]

theorem forall₂_exists_left {α β : Type} (R : α → β → Prop) (l1 : List α) (l2 : List β)
    (h : List.Forall₂ R l1 l2) (b : β) (hb : b ∈ l2) : ∃ a ∈ l1, R a b := by
  induction h with
  | nil => simp at hb
  | cons hab _ ih =>
    rcases List.mem_cons.mp hb with h1 | h1
    · subst h1; exact ⟨_, List.mem_cons_self _ _, hab⟩
    · obtain ⟨a, ha, hr⟩ := ih h1
      exact ⟨a, List.mem_cons_of_mem _ ha, hr⟩

theorem forall₂_exists_right {α β : Type} (R : α → β → Prop) (l1 : List α) (l2 : List β)
    (h : List.Forall₂ R l1 l2) (a : α) (ha : a ∈ l1) : ∃ b ∈ l2, R a b := by
  induction h with
  | nil => simp at ha
  | cons hab _ ih =>
    rcases List.mem_cons.mp ha with h1 | h1
    · subst h1; exact ⟨_, List.mem_cons_self _ _, hab⟩
    · obtain ⟨b, hb, hr⟩ := ih h1
      exact ⟨b, List.mem_cons_of_mem _ hb, hr⟩

theorem GetDbBridges_ok_forall₂ {σ κ : Type} (cli : OvsClient σ κ) (s s1 : σ)
    (res : Result κ) (bs : List OvsBridge)
    (ht : cli.Transact cli.Name "SELECT * FROM Bridge" s = ((res, none), s1))
    (hb : GetDbBridges cli s = (.ok bs, s1)) :
    List.Forall₂ (fun r b => GetDbBridges.body r res.Columns = .ok b) res.Rows bs := by
  have hne : res.Rows ≠ [] := by
    intro h0
    rw [GetDbBridges_no_rows cli s s1 res ht h0] at hb
    cases hb
  rw [GetDbBridges_of_rows cli s s1 res ht hne] at hb
  obtain ⟨recs, hout, hf⟩ := (collect_ok_iff _ _ _ _).mp (congrArg Prod.fst hb)
  simp only [List.nil_append] at hout
  subst hout
  exact hf

theorem GetDbPorts_ok_forall₂ {σ κ : Type} (cli : OvsClient σ κ) (s s1 : σ)
    (res : Result κ) (ps : List OvsPort)
    (ht : cli.Transact cli.Name "SELECT * FROM Port" s = ((res, none), s1))
    (hp : GetDbPorts cli s = (.ok ps, s1)) :
    List.Forall₂ (fun r p => GetDbPorts.body r res.Columns = .ok p) res.Rows ps := by
  have hne : res.Rows ≠ [] := by
    intro h0
    rw [GetDbPorts_no_rows cli s s1 res ht h0] at hp
    cases hp
  rw [GetDbPorts_of_rows cli s s1 res ht hne] at hp
  obtain ⟨recs, hout, hf⟩ := (collect_ok_iff _ _ _ _).mp (congrArg Prod.fst hp)
  simp only [List.nil_append] at hout
  subst hout
  exact hf

theorem uuids_inherited {ρ β : Type} (key : ρ → Option String) (uuid : β → String)
    (rows : List ρ) (recs : List β)
    (h : List.Forall₂ (fun r b => key r = some (uuid b)) rows recs) :
    rows.map key = recs.map (fun b => some (uuid b)) ∧
      ((∀ r ∈ rows, key r ≠ some "") → ∀ b ∈ recs, uuid b ≠ "") ∧
      ((rows.map key).Nodup → (recs.map uuid).Nodup) := by
  have hmap := forall₂_map_eq key (fun b => some (uuid b)) rows recs h
  refine ⟨hmap, ?_, ?_⟩
  · intro hne b hb he
    obtain ⟨r, hr, hk⟩ := forall₂_exists_left _ rows recs h b hb
    exact hne r hr (by rw [hk, he])
  · intro hnd
    rw [hmap] at hnd
    have hcomp : recs.map (fun b => some (uuid b)) = (recs.map uuid).map some := by simp
    rw [hcomp] at hnd
    exact hnd.of_map _

/-- C16, the claim as stated fails: on rows whose `_uuid` strings are the empty string, `u1`
and `u1` again, `GetDbBridges` succeeds and returns a record with an empty `UUID` and two
records with the same `UUID`. -/
theorem C16_counterexample :
    GetDbBridges (OvsClient.ofTables emptyAndRepeatedUuidRows emptyAndRepeatedUuidRows) []
        = (.ok [{ UUID := "" }, { UUID := "u1", Name := "N1" }, { UUID := "u1", Name := "N2" }],
            ["SELECT * FROM Bridge"]) ∧
      ({ UUID := "" } : OvsBridge).UUID = "" ∧
      ({ UUID := "u1", Name := "N1" } : OvsBridge).UUID
        = ({ UUID := "u1", Name := "N2" } : OvsBridge).UUID :=
  ⟨rfl, rfl, rfl⟩

/-- C16, amended: for every successful `GetDbBridges` (resp. `GetDbPorts`) call, the UUIDs of
the returned records are, in order, exactly the `_uuid` strings of the rows; hence every
`UUID` is non-empty when every row's `_uuid` string is, and the UUIDs are pairwise distinct
when the rows' `_uuid` strings are. -/
theorem C16_identifiers_inherited {σ κ : Type} (cli : OvsClient σ κ) (sb sb1 sp sp1 : σ)
    (resB resP : Result κ) (bs : List OvsBridge) (ps : List OvsPort)
    (hB : cli.Transact cli.Name "SELECT * FROM Bridge" sb = ((resB, none), sb1))
    (hP : cli.Transact cli.Name "SELECT * FROM Port" sp = ((resP, none), sp1))
    (hb : GetDbBridges cli sb = (.ok bs, sb1)) (hp : GetDbPorts cli sp = (.ok ps, sp1)) :
    (resB.Rows.map (Row.uuidString resB.Columns) = bs.map (fun b => some b.UUID) ∧
      ((∀ r ∈ resB.Rows, Row.uuidString resB.Columns r ≠ some "") → ∀ b ∈ bs, b.UUID ≠ "") ∧
      ((resB.Rows.map (Row.uuidString resB.Columns)).Nodup →
        (bs.map (fun b => b.UUID)).Nodup)) ∧
    (resP.Rows.map (Row.uuidString resP.Columns) = ps.map (fun p => some p.UUID) ∧
      ((∀ r ∈ resP.Rows, Row.uuidString resP.Columns r ≠ some "") → ∀ p ∈ ps, p.UUID ≠ "") ∧
      ((resP.Rows.map (Row.uuidString resP.Columns)).Nodup →
        (ps.map (fun p => p.UUID)).Nodup)) := by
  constructor
  · apply uuids_inherited
    refine (GetDbBridges_ok_forall₂ cli sb sb1 resB bs hB hb).imp ?_
    intro r b hrb
    simp [Row.uuidString, (GetDbBridges_body_shape r resB.Columns b hrb).2, Lookup.ofString,
      Value.assertString]
  · apply uuids_inherited
    refine (GetDbPorts_ok_forall₂ cli sp sp1 resP ps hP hp).imp ?_
    intro r p hrp
    simp [Row.uuidString, (GetDbPorts_body_shape r resP.Columns p hrp).2, Lookup.ofString,
      Value.assertString]

/-- Witness for the amended C16 on the two-bridge fixture: the identifiers of the records are
those of the rows. -/
theorem C16_identifiers_inherited_witness :
    fixtureBridgeRows.map (Row.uuidString ()) = [some "b1", some "b2"] ∧
      fixturePortRows.map (Row.uuidString ()) = [some "P1", some "P2"] := by
  obtain ⟨⟨h1, _, _⟩, ⟨h2, _, _⟩⟩ := C16_identifiers_inherited fixtureClient []
    ["SELECT * FROM Bridge"] [] ["SELECT * FROM Port"]
    ⟨fixtureBridgeRows, ()⟩ ⟨fixturePortRows, ()⟩
    [{ UUID := "b1", Name := "B1", Ports := ["P1"] },
     { UUID := "b2", Name := "B2", Ports := ["P2"] }]
    [{ UUID := "P1", Name := "p1", Interfaces := ["I1", "I2"] },
     { UUID := "P2", Name := "p2", Interfaces := ["I3"] }] rfl rfl rfl rfl
  exact ⟨h1, h2⟩

theorem GetDbBridges_agree {σ τ κ : Type} (cli1 : OvsClient σ κ) (cli2 : OvsClient τ κ)
    (s s1 : σ) (t t1 : τ) (r1 r2 : Result κ)
    (h1 : cli1.Transact cli1.Name "SELECT * FROM Bridge" s = ((r1, none), s1))
    (h2 : cli2.Transact cli2.Name "SELECT * FROM Bridge" t = ((r2, none), t1))
    (hag : List.Forall₂ (Row.AgreeOn ["_uuid", "name", "ports"] r1.Columns r2.Columns)
      r1.Rows r2.Rows) :
    ∃ o, GetDbBridges cli1 s = (o, s1) ∧ GetDbBridges cli2 t = (o, t1) := by
  by_cases hne : r1.Rows = []
  · have hne2 : r2.Rows = [] := by
      rw [hne] at hag
      exact List.forall₂_nil_left_iff.mp hag
    exact ⟨_, GetDbBridges_no_rows cli1 s s1 r1 h1 hne,
      GetDbBridges_no_rows cli2 t t1 r2 h2 hne2⟩
  · have hne2 : r2.Rows ≠ [] := by
      intro h0
      rw [h0] at hag
      exact hne (List.forall₂_nil_right_iff.mp hag)
    refine ⟨_, GetDbBridges_of_rows cli1 s s1 r1 h1 hne, ?_⟩
    rw [GetDbBridges_of_rows cli2 t t1 r2 h2 hne2]
    rw [collect_congr (fun r => GetDbBridges.body r r1.Columns)
      (fun r => GetDbBridges.body r r2.Columns) r1.Rows r2.Rows []
      (hag.imp (fun a b hab => GetDbBridges_body_congr r1.Columns r2.Columns a b hab))]

theorem GetDbPorts_agree {σ τ κ : Type} (cli1 : OvsClient σ κ) (cli2 : OvsClient τ κ)
    (s s1 : σ) (t t1 : τ) (r1 r2 : Result κ)
    (h1 : cli1.Transact cli1.Name "SELECT * FROM Port" s = ((r1, none), s1))
    (h2 : cli2.Transact cli2.Name "SELECT * FROM Port" t = ((r2, none), t1))
    (hag : List.Forall₂ (Row.AgreeOn ["_uuid", "name", "interfaces"] r1.Columns r2.Columns)
      r1.Rows r2.Rows) :
    ∃ o, GetDbPorts cli1 s = (o, s1) ∧ GetDbPorts cli2 t = (o, t1) := by
  by_cases hne : r1.Rows = []
  · have hne2 : r2.Rows = [] := by
      rw [hne] at hag
      exact List.forall₂_nil_left_iff.mp hag
    exact ⟨_, GetDbPorts_no_rows cli1 s s1 r1 h1 hne,
      GetDbPorts_no_rows cli2 t t1 r2 h2 hne2⟩
  · have hne2 : r2.Rows ≠ [] := by
      intro h0
      rw [h0] at hag
      exact hne (List.forall₂_nil_right_iff.mp hag)
    refine ⟨_, GetDbPorts_of_rows cli1 s s1 r1 h1 hne, ?_⟩
    rw [GetDbPorts_of_rows cli2 t t1 r2 h2 hne2]
    rw [collect_congr (fun r => GetDbPorts.body r r1.Columns)
      (fun r => GetDbPorts.body r r2.Columns) r1.Rows r2.Rows []
      (hag.imp (fun a b hab => GetDbPorts_body_congr r1.Columns r2.Columns a b hab))]

/-- C17: auxiliary columns cannot influence decoding or topology. If two Bridge results have
rows that agree, position by position, on the lookup outcome of `_uuid`, `name` and `ports`,
`GetDbBridges` returns the same outcome on both; likewise `GetDbPorts` for `_uuid`, `name`
and `interfaces`; hence `GetAllInterfacesToBridges` returns the same outcome on both runs,
whatever any other column holds. -/
theorem C17_auxiliary_columns_noninterference {σ τ κ : Type}
    (cli1 : OvsClient σ κ) (cli2 : OvsClient τ κ) (s s1 s2 : σ) (t t1 t2 : τ)
    (rB1 rB2 rP1 rP2 : Result κ)
    (hB1 : cli1.Transact cli1.Name "SELECT * FROM Bridge" s = ((rB1, none), s1))
    (hB2 : cli2.Transact cli2.Name "SELECT * FROM Bridge" t = ((rB2, none), t1))
    (hP1 : cli1.Transact cli1.Name "SELECT * FROM Port" s1 = ((rP1, none), s2))
    (hP2 : cli2.Transact cli2.Name "SELECT * FROM Port" t1 = ((rP2, none), t2))
    (hagB : List.Forall₂ (Row.AgreeOn ["_uuid", "name", "ports"] rB1.Columns rB2.Columns)
      rB1.Rows rB2.Rows)
    (hagP : List.Forall₂ (Row.AgreeOn ["_uuid", "name", "interfaces"] rP1.Columns rP2.Columns)
      rP1.Rows rP2.Rows) :
    (GetDbBridges cli1 s).1 = (GetDbBridges cli2 t).1 ∧
      (GetDbPorts cli1 s1).1 = (GetDbPorts cli2 t1).1 ∧
      (GetAllInterfacesToBridges cli1 s).1 = (GetAllInterfacesToBridges cli2 t).1 := by
  obtain ⟨ob, hb1, hb2⟩ := GetDbBridges_agree cli1 cli2 s s1 t t1 rB1 rB2 hB1 hB2 hagB
  obtain ⟨op, hp1, hp2⟩ := GetDbPorts_agree cli1 cli2 s1 s2 t1 t2 rP1 rP2 hP1 hP2 hagP
  refine ⟨by rw [hb1, hb2], by rw [hp1, hp2], ?_⟩
  simp only [GetAllInterfacesToBridges, GetAllPortsToInterfaces, hb1, hb2]
  cases ob with
  | error e => rfl
  | panic => rfl
  | ok bs =>
    simp only [hp1, hp2]
    cases op <;> rfl

/-- Witness for C17: the two-bridge fixture with and without auxiliary columns. -/
theorem C17_auxiliary_columns_noninterference_witness :
    (GetAllInterfacesToBridges fixtureClient []).1
      = (GetAllInterfacesToBridges
          (OvsClient.ofTables fixtureBridgeRowsAux fixturePortRowsAux) []).1 := by
  have h := C17_auxiliary_columns_noninterference fixtureClient
    (OvsClient.ofTables fixtureBridgeRowsAux fixturePortRowsAux)
    [] ["SELECT * FROM Bridge"] ["SELECT * FROM Bridge", "SELECT * FROM Port"]
    [] ["SELECT * FROM Bridge"] ["SELECT * FROM Bridge", "SELECT * FROM Port"]
    ⟨fixtureBridgeRows, ()⟩ ⟨fixtureBridgeRowsAux, ()⟩
    ⟨fixturePortRows, ()⟩ ⟨fixturePortRowsAux, ()⟩ rfl rfl rfl rfl
    (by
      refine List.Forall₂.cons ?_ (List.Forall₂.cons ?_ List.Forall₂.nil)
      all_goals
        intro name hn
        simp only [List.mem_cons, List.mem_singleton, List.not_mem_nil, or_false] at hn
        rcases hn with rfl | rfl | rfl <;> rfl)
    (by
      refine List.Forall₂.cons ?_ (List.Forall₂.cons ?_ List.Forall₂.nil)
      all_goals
        intro name hn
        simp only [List.mem_cons, List.mem_singleton, List.not_mem_nil, or_false] at hn
        rcases hn with rfl | rfl | rfl <;> rfl)
  exact h.2.2

/-- C18: only three fields are ever populated. Every record returned by a successful
`GetDbBridges` equals the record built from its own `UUID`, `Name` and `Ports` with every
other field at its zero value, and every record returned by a successful `GetDbPorts` equals
the record built from its own `UUID`, `Name` and `Interfaces`, whatever the rows contain. -/
theorem C18_only_three_fields {σ κ : Type} (cli : OvsClient σ κ) (sb sb1 sp sp1 : σ)
    (bs : List OvsBridge) (ps : List OvsPort)
    (hb : GetDbBridges cli sb = (.ok bs, sb1)) (hp : GetDbPorts cli sp = (.ok ps, sp1)) :
    (∀ b ∈ bs, b = { UUID := b.UUID, Name := b.Name, Ports := b.Ports }) ∧
      (∀ p ∈ ps, p = { UUID := p.UUID, Name := p.Name, Interfaces := p.Interfaces }) := by
  constructor
  · intro b hmem
    obtain ⟨res, _, _, hc⟩ := GetDbBridges_ok_rows cli sb bs (by rw [hb])
    obtain ⟨recs, hout, hf⟩ := (collect_ok_iff _ _ _ _).mp hc
    simp only [List.nil_append] at hout
    subst hout
    obtain ⟨r, _, hr⟩ := forall₂_exists_left _ _ _ hf b hmem
    exact (GetDbBridges_body_shape r res.Columns b hr).1
  · intro p hmem
    obtain ⟨res, _, _, hc⟩ := GetDbPorts_ok_rows cli sp ps (by rw [hp])
    obtain ⟨recs, hout, hf⟩ := (collect_ok_iff _ _ _ _).mp hc
    simp only [List.nil_append] at hout
    subst hout
    obtain ⟨r, _, hr⟩ := forall₂_exists_left _ _ _ hf p hmem
    exact (GetDbPorts_body_shape r res.Columns p hr).1

/-- Witness for C18: rows carrying auxiliary columns still give records with nothing but
identifier, name and list field set. -/
theorem C18_only_three_fields_witness :
    (∀ b ∈ ([{ UUID := "b1", Name := "B1", Ports := ["P1"] },
        { UUID := "b2", Name := "B2", Ports := ["P2"] }] : List OvsBridge),
      b = { UUID := b.UUID, Name := b.Name, Ports := b.Ports }) ∧
    (∀ p ∈ ([{ UUID := "P1", Name := "p1", Interfaces := ["I1", "I2"] },
        { UUID := "P2", Name := "p2", Interfaces := ["I3"] }] : List OvsPort),
      p = { UUID := p.UUID, Name := p.Name, Interfaces := p.Interfaces }) :=
  C18_only_three_fields (OvsClient.ofTables fixtureBridgeRowsAux fixturePortRowsAux) []
    ["SELECT * FROM Bridge"] [] ["SELECT * FROM Port"] _ _ rfl rfl

theorem join_apply_reach (p2i : GoMap (List String)) (bs : List OvsBridge) (i : String)
    (hun : ∀ b1 ∈ bs, ∀ b2 ∈ bs, Reaches p2i b1 i → Reaches p2i b2 i → b1.Name = b2.Name)
    (b : OvsBridge) (hb : b ∈ bs) (hr : Reaches p2i b i) :
    GetAllInterfacesToBridges.join bs p2i i = some b.Name := by
  obtain ⟨pre, c, post, hl, hc, hpost⟩ := exists_last (fun x => Reaches p2i x i) bs ⟨b, hb, hr⟩
  have hcm : c ∈ bs := by rw [hl]; simp
  rw [join_eq_foldl]
  conv_lhs => rw [hl]
  rw [foldl_perBridge_last p2i pre post c _ i hc hpost, hun c hcm b hb hc hr]

theorem join_apply_none (p2i : GoMap (List String)) (bs : List OvsBridge) (i : String)
    (h : ∀ b ∈ bs, ¬ Reaches p2i b i) :
    GetAllInterfacesToBridges.join bs p2i i = none := by
  rw [join_eq_foldl, foldl_perBridge_skip p2i bs _ i h]
  rfl

theorem reaches_of_perm (p2i : GoMap (List String)) (b c : OvsBridge) (i : String)
    (h : c.Ports.Perm b.Ports) : Reaches p2i c i ↔ Reaches p2i b i := by
  constructor
  · rintro ⟨p, hp, hi⟩; exact ⟨p, h.mem_iff.mp hp, hi⟩
  · rintro ⟨p, hp, hi⟩; exact ⟨p, h.mem_iff.mpr hp, hi⟩

/-- C19: bridge order is irrelevant when ownership is unambiguous. If no interface is
reachable from two bridges of the list with different names, the map computed by the join
loop is unchanged by permuting the Bridge list and by permuting the `Ports` list of each
bridge. -/
theorem C19_order_irrelevant (p2i : GoMap (List String)) (bs mid bs2 : List OvsBridge)
    (hun : ∀ b1 ∈ bs, ∀ b2 ∈ bs, ∀ i,
      Reaches p2i b1 i → Reaches p2i b2 i → b1.Name = b2.Name)
    (hperm : bs.Perm mid)
    (hports : List.Forall₂ (fun b c => c.Name = b.Name ∧ c.Ports.Perm b.Ports) mid bs2) :
    GetAllInterfacesToBridges.join bs2 p2i = GetAllInterfacesToBridges.join bs p2i := by
  have hto : ∀ c ∈ bs2, ∃ b ∈ bs, c.Name = b.Name ∧ c.Ports.Perm b.Ports := by
    intro c hc
    obtain ⟨b, hb, hr⟩ := forall₂_exists_left _ mid bs2 hports c hc
    exact ⟨b, hperm.mem_iff.mpr hb, hr⟩
  have hfrom : ∀ b ∈ bs, ∃ c ∈ bs2, c.Name = b.Name ∧ c.Ports.Perm b.Ports := by
    intro b hb
    exact forall₂_exists_right _ mid bs2 hports b (hperm.mem_iff.mp hb)
  funext i
  have hun2 : ∀ c1 ∈ bs2, ∀ c2 ∈ bs2, Reaches p2i c1 i → Reaches p2i c2 i →
      c1.Name = c2.Name := by
    intro c1 h1 c2 h2 r1 r2
    obtain ⟨b1, hb1, hn1, hp1⟩ := hto c1 h1
    obtain ⟨b2, hb2, hn2, hp2⟩ := hto c2 h2
    rw [hn1, hn2]
    exact hun b1 hb1 b2 hb2 i ((reaches_of_perm p2i b1 c1 i hp1).mp r1)
      ((reaches_of_perm p2i b2 c2 i hp2).mp r2)
  by_cases h : ∃ b ∈ bs, Reaches p2i b i
  · obtain ⟨b, hb, hr⟩ := h
    obtain ⟨c, hc, hn, hp⟩ := hfrom b hb
    rw [join_apply_reach p2i bs i (fun b1 h1 b2 h2 => hun b1 h1 b2 h2 i) b hb hr,
      join_apply_reach p2i bs2 i hun2 c hc ((reaches_of_perm p2i b c i hp).mpr hr), hn]
  · have hnone2 : ∀ c ∈ bs2, ¬ Reaches p2i c i := by
      intro c hc hr
      obtain ⟨b, hb, _, hp⟩ := hto c hc
      exact h ⟨b, hb, (reaches_of_perm p2i b c i hp).mp hr⟩
    rw [join_apply_none p2i bs2 i hnone2,
      join_apply_none p2i bs i (fun b hb hr => h ⟨b, hb, hr⟩)]

/-- Witness for C19: two bridges with disjoint interfaces; listing them in the opposite
order and swapping the ports of `B1` leaves the map unchanged. -/
theorem C19_order_irrelevant_witness :
    GetAllInterfacesToBridges.join orderFixtureBridgesPermuted
        (GetAllPortsToInterfaces.build orderFixturePorts)
      = GetAllInterfacesToBridges.join orderFixtureBridges
        (GetAllPortsToInterfaces.build orderFixturePorts) := by
  have e1 : (GetAllPortsToInterfaces.build orderFixturePorts).index "P1" = ["I1"] := rfl
  have e2 : (GetAllPortsToInterfaces.build orderFixturePorts).index "P2" = ["I2"] := rfl
  have e3 : (GetAllPortsToInterfaces.build orderFixturePorts).index "P3" = ["I3"] := rfl
  have hsplit : ∀ i,
      Reaches (GetAllPortsToInterfaces.build orderFixturePorts)
        { UUID := "b1", Name := "B1", Ports := ["P1", "P2"] } i →
      Reaches (GetAllPortsToInterfaces.build orderFixturePorts)
        { UUID := "b2", Name := "B2", Ports := ["P3"] } i → False := by
    rintro i ⟨p, hp, hi⟩ ⟨q, hq, hj⟩
    simp only [List.mem_cons, List.mem_singleton, List.not_mem_nil, or_false] at hp hq
    subst hq
    rw [e3] at hj
    simp only [List.mem_singleton] at hj
    subst hj
    rcases hp with rfl | rfl
    · rw [e1] at hi; exact absurd hi (by decide)
    · rw [e2] at hi; exact absurd hi (by decide)
  exact C19_order_irrelevant (GetAllPortsToInterfaces.build orderFixturePorts)
    orderFixtureBridges
    [{ UUID := "b2", Name := "B2", Ports := ["P3"] },
     { UUID := "b1", Name := "B1", Ports := ["P1", "P2"] }]
    orderFixtureBridgesPermuted
    (by
      intro b1 h1 b2 h2 i r1 r2
      simp only [orderFixtureBridges, List.mem_cons, List.mem_singleton, List.not_mem_nil,
        or_false] at h1 h2
      rcases h1 with rfl | rfl <;> rcases h2 with rfl | rfl
      · rfl
      · exact (hsplit i r1 r2).elim
      · exact (hsplit i r2 r1).elim
      · rfl)
    (List.Perm.swap _ _ [])
    (List.Forall₂.cons ⟨rfl, List.Perm.refl _⟩
      (List.Forall₂.cons ⟨rfl, List.Perm.swap "P1" "P2" []⟩ List.Forall₂.nil))

end Ovsdbclient
